import Mathlib

/-!
Verification development for the Connect-Four session engine.

The definitions below are a shallow embedding of the TypeScript sources:
* `GameLogic`   — `backend/src/models/GameLogic.ts` (pure board engine);
* `Bot`         — `backend/src/ai/ConnectFourBot.ts` (minimax opponent AI);
* `GameService` — `backend/src/services/GameService.ts` (session registry and
  lifecycle controller).

Modelling conventions:
* a board is a list of 7 columns, each a list of 6 cells (`Option String`,
  `none` = empty cell, row 0 at the bottom); boards built by the program are
  always well-formed (7 × 6), and theorems that depend on array bounds carry a
  `wellFormed` hypothesis;
* JavaScript `Infinity` / `-Infinity` used by the bot as sentinels are
  modelled by the integers `POS_INF` / `NEG_INF` = ±10^9, which lie strictly
  outside the range of every reachable score (all scores are bounded by
  70007 in absolute value, see `minimax_gt_NEG_INF`);
* JavaScript `Map`s are association lists whose update and delete operations
  keep keys unique;
* external collaborators (database persistence, analytics publishing, player
  stat records) are fire-and-forget sinks per the spec and are not part of
  the registry state; timestamps and uuid generation are likewise external
  inputs and are dropped from records when no claim mentions them.
-/

namespace C4E

/-- A board cell: `none` = empty, `some pid` = owned by participant `pid`. -/
abbrev Cell := Option String

/-- A board: 7 columns of 6 cells, `board[col][row]`, row 0 at the bottom. -/
abbrev Board := List (List Cell)

namespace GameLogic

def ROWS : Nat := 6
def COLS : Nat := 7
def CONNECT_COUNT : Nat := 4

/-- `GameLogic.createEmptyBoard`. -/
def createEmptyBoard : Board := List.replicate COLS (List.replicate ROWS none)

/-- Cell access `board[col][row]`; out-of-range reads give `none`.
(JavaScript gives `undefined` out of range; every access the code performs
is bounds-checked first or covered by a `wellFormed` hypothesis.) -/
def getCell (b : Board) (c r : Nat) : Cell := (b.getD c []).getD r none

/-- A board is 7 columns of 6 cells, as built by `createEmptyBoard`. -/
def wellFormed (b : Board) : Prop := b.length = COLS ∧ ∀ col ∈ b, col.length = ROWS

instance (b : Board) : Decidable (wellFormed b) := by
  unfold wellFormed; infer_instance

/-- `GameLogic.isValidMove`: column in range and its top cell empty. -/
def isValidMove (b : Board) (column : Int) : Bool :=
  if column < 0 || (COLS : Int) ≤ column then false
  else (getCell b column.toNat (ROWS - 1)).isNone

/-- The row scan of `GameLogic.makeMove`: index of the lowest empty cell. -/
def lowestEmpty : List Cell → Option Nat
  | [] => none
  | none :: _ => some 0
  | some _ :: rest => (lowestEmpty rest).map (· + 1)

/-- `GameLogic.makeMove`: place at the lowest empty row of `column`;
`none` models `{ success: false }` (the board is then untouched). -/
def makeMove (b : Board) (column : Int) (pid : String) : Option (Board × Nat) :=
  if !isValidMove b column then none
  else
    match lowestEmpty (b.getD column.toNat []) with
    | some r => some (b.set column.toNat ((b.getD column.toNat []).set r (some pid)), r)
    | none => none

/-- `GameLogic.checkDirection`: 4 cells from `(startCol, startRow)` along
`(deltaCol, deltaRow)` are in bounds and owned by `player`. -/
def checkDirection (b : Board) (startCol startRow : Nat) (deltaCol deltaRow : Int)
    (player : String) : Bool :=
  (List.range CONNECT_COUNT).all fun i =>
    let c : Int := (startCol : Int) + i * deltaCol
    let r : Int := (startRow : Int) + i * deltaRow
    if c < 0 || (COLS : Int) ≤ c || r < 0 || (ROWS : Int) ≤ r then false
    else getCell b c.toNat r.toNat = some player

/-- One candidate start of `GameLogic.checkWinner`: the owner of a complete
run from `(c, r)` along `(dc, dr)`, if the start cell is occupied. -/
def winAt (b : Board) (c r : Nat) (dc dr : Int) : Option String :=
  match getCell b c r with
  | some player => if checkDirection b c r dc dr player then some player else none
  | none => none

/-- `GameLogic.checkWinner`: scan horizontal, vertical and both diagonal runs
in the source's loop order; first complete run's owner, else `none`. -/
def checkWinner (b : Board) : Option String :=
  let horiz := (List.range ROWS).flatMap fun row =>
    (List.range (COLS - CONNECT_COUNT + 1)).map fun col => winAt b col row 1 0
  let vert := (List.range COLS).flatMap fun col =>
    (List.range (ROWS - CONNECT_COUNT + 1)).map fun row => winAt b col row 0 1
  let diagUp := (List.range (COLS - CONNECT_COUNT + 1)).flatMap fun col =>
    (List.range (ROWS - CONNECT_COUNT + 1)).map fun row => winAt b col row 1 1
  let diagDown := (List.range (COLS - CONNECT_COUNT + 1)).flatMap fun col =>
    ((List.range ROWS).drop (CONNECT_COUNT - 1)).map fun row => winAt b col row 1 (-1)
  ((horiz ++ vert ++ diagUp ++ diagDown).filterMap id).head?

/-- `GameLogic.isBoardFull`: every column's top cell is occupied. -/
def isBoardFull (b : Board) : Bool :=
  (List.range COLS).all fun col => !(getCell b col (ROWS - 1)).isNone

/-- `GameLogic.getValidMoves`. -/
def getValidMoves (b : Board) : List Int :=
  (List.range COLS).filterMap fun c =>
    if isValidMove b (c : Int) then some ((c : Int)) else none

/-- `GameLogic.evaluateWindow`: score one length-4 window. -/
def evaluateWindow (b : Board) (startCol startRow : Nat) (deltaCol deltaRow : Int)
    (playerId opponentId : String) : Int :=
  let cells := (List.range CONNECT_COUNT).map fun i =>
    getCell b ((startCol : Int) + i * deltaCol).toNat ((startRow : Int) + i * deltaRow).toNat
  let playerCount := (cells.filter (· = some playerId)).length
  let opponentCount := (cells.filter (· = some opponentId)).length
  let emptyCount := (cells.filter (fun c => c ≠ some playerId ∧ c ≠ some opponentId)).length
  if playerCount > 0 ∧ opponentCount > 0 then 0
  else if playerCount = 4 then 1000
  else if playerCount = 3 ∧ emptyCount = 1 then 50
  else if playerCount = 2 ∧ emptyCount = 2 then 10
  else if playerCount = 1 ∧ emptyCount = 3 then 1
  else if opponentCount = 4 then -1000
  else if opponentCount = 3 ∧ emptyCount = 1 then -50
  else if opponentCount = 2 ∧ emptyCount = 2 then -10
  else if opponentCount = 1 ∧ emptyCount = 3 then -1
  else 0

/-- The window starts scanned by `GameLogic.evaluateBoard`, in loop order. -/
def evalWindows : List (Nat × Nat × Int × Int) :=
  let horiz := (List.range ROWS).flatMap fun row =>
    (List.range (COLS - CONNECT_COUNT + 1)).map fun col => (col, row, (1 : Int), (0 : Int))
  let vert := (List.range COLS).flatMap fun col =>
    (List.range (ROWS - CONNECT_COUNT + 1)).map fun row => (col, row, (0 : Int), (1 : Int))
  let diagUp := (List.range (COLS - CONNECT_COUNT + 1)).flatMap fun col =>
    (List.range (ROWS - CONNECT_COUNT + 1)).map fun row => (col, row, (1 : Int), (1 : Int))
  let diagDown := (List.range (COLS - CONNECT_COUNT + 1)).flatMap fun col =>
    ((List.range ROWS).drop (CONNECT_COUNT - 1)).map fun row => (col, row, (1 : Int), (-1 : Int))
  horiz ++ vert ++ diagUp ++ diagDown

/-- `GameLogic.evaluateBoard`: terminal saturation, else window-sum heuristic. -/
def evaluateBoard (b : Board) (playerId opponentId : String) : Int :=
  if checkWinner b = some playerId then 1000
  else if checkWinner b = some opponentId then -1000
  else if isBoardFull b then 0
  else
    (evalWindows.map fun w => evaluateWindow b w.1 w.2.1 w.2.2.1 w.2.2.2 playerId opponentId).sum

/-- The gravity invariant: in every column, an occupied cell has only
occupied cells below it. -/
def gravityOk (b : Board) : Prop :=
  ∀ c r1 r2 : Nat, r1 < r2 → getCell b c r2 ≠ none → getCell b c r1 ≠ none

/-- Apply a move if legal, keep the board unchanged otherwise (what the
caller observes of the in-place `GameLogic.makeMove`). -/
def applyMoveOrKeep (b : Board) (m : Int × String) : Board :=
  match makeMove b m.1 m.2 with
  | some (b2, _) => b2
  | none => b

/-- The board after a sequence of move attempts from the empty board. -/
def applySeq (ms : List (Int × String)) : Board :=
  ms.foldl applyMoveOrKeep createEmptyBoard

end GameLogic

namespace Bot

open GameLogic

/-- Sentinel modelling JavaScript `-Infinity`; strictly below every reachable
score (scores are bounded by `70007` in absolute value). -/
def NEG_INF : Int := -(10 ^ 9)

/-- Sentinel modelling JavaScript `Infinity`. -/
def POS_INF : Int := 10 ^ 9

/-- `ConnectFourBot`'s move report (`BotMove` in `types/index.ts`). -/
structure BotMove where
  column : Int
  score : Int
  reasoning : String
  deriving Repr, DecidableEq

/-- Effective search depth set by the `ConnectFourBot` constructor:
`Math.max(3, Math.min(7, difficulty))`. -/
def botMaxDepth (difficulty : Int) : Int := max 3 (min 7 difficulty)

/-- The constructor's default `difficulty` argument. -/
def defaultDifficulty : Int := 5

/-- The scan of `ConnectFourBot.findImmediateWin` over a list of candidate
columns: first column whose simulated move makes `pid` the winner, else -1. -/
def findWinAux (pid : String) (b : Board) : List Int → Int
  | [] => -1
  | c :: rest =>
    match makeMove b c pid with
    | some (b2, _) => if checkWinner b2 = some pid then c else findWinAux pid b rest
    | none => findWinAux pid b rest

/-- `ConnectFourBot.findImmediateWin`. -/
def findImmediateWin (pid : String) (b : Board) : Int :=
  findWinAux pid b (getValidMoves b)

/-- The maximizing loop of `ConnectFourBot.minimax`: fold over candidate
columns threading `maxScore` and `alpha`, breaking when `beta ≤ alpha`.
`step` is the recursive `minimax` call one ply deeper. -/
def abMaxLoop (step : Board → Int → Int → Int) (pid : String) (b : Board) :
    List Int → Int → Int → Int → Int
  | [], best, _, _ => best
  | c :: rest, best, alpha, beta =>
    match makeMove b c pid with
    | none => abMaxLoop step pid b rest best alpha beta
    | some (b2, _) =>
      let score := step b2 alpha beta
      let best2 := max best score
      let alpha2 := max alpha score
      if beta ≤ alpha2 then best2 else abMaxLoop step pid b rest best2 alpha2 beta

/-- The minimizing loop of `ConnectFourBot.minimax` (opponent's reply),
threading `minScore` and `beta`. -/
def abMinLoop (step : Board → Int → Int → Int) (oid : String) (b : Board) :
    List Int → Int → Int → Int → Int
  | [], best, _, _ => best
  | c :: rest, best, alpha, beta =>
    match makeMove b c oid with
    | none => abMinLoop step oid b rest best alpha beta
    | some (b2, _) =>
      let score := step b2 alpha beta
      let best2 := min best score
      let beta2 := min beta score
      if beta2 ≤ alpha then best2 else abMinLoop step oid b rest best2 alpha beta2

/-- `ConnectFourBot.minimax` with alpha-beta pruning; terminal wins score
`±(1000 + depth)`, a full board or exhausted depth falls back to
`evaluateBoard`. -/
def minimax (pid oid : String) : Nat → Board → Bool → Int → Int → Int
  | 0, b, _, _, _ =>
    if checkWinner b = some pid then 1000
    else if checkWinner b = some oid then -1000
    else evaluateBoard b pid oid
  | d + 1, b, isMax, alpha, beta =>
    if checkWinner b = some pid then 1000 + ((d : Int) + 1)
    else if checkWinner b = some oid then -1000 - ((d : Int) + 1)
    else if isBoardFull b then evaluateBoard b pid oid
    else if isMax then
      abMaxLoop (fun b2 a β => minimax pid oid d b2 false a β) pid b
        (getValidMoves b) NEG_INF alpha beta
    else
      abMinLoop (fun b2 a β => minimax pid oid d b2 true a β) oid b
        (getValidMoves b) POS_INF alpha beta

/-- The root score `ConnectFourBot.getBestMove` computes for one candidate
column (simulate own move, then minimax one ply deeper, minimizing). -/
def rootScore (pid oid : String) (depth : Nat) (b : Board) (c : Int) : Int :=
  match makeMove b c pid with
  | some (b2, _) => minimax pid oid depth b2 false NEG_INF POS_INF
  | none => NEG_INF

/-- The reasoning string chosen when a root score improves the running best. -/
def scoreReasoning (score : Int) : String :=
  if score ≥ 500 then "Strong offensive position"
  else if score ≥ 100 then "Good strategic position"
  else if score ≥ 0 then "Defensive positioning"
  else "Best available option"

/-- The strategic loop of `ConnectFourBot.getBestMove`: first column with a
strictly better score replaces the running best (ties keep the earlier
column). -/
def bestLoop (pid oid : String) (depth : Nat) (b : Board) :
    List Int → Int → Int → String → Int × Int × String
  | [], bm, bs, r => (bm, bs, r)
  | c :: rest, bm, bs, r =>
    match makeMove b c pid with
    | none => bestLoop pid oid depth b rest bm bs r
    | some (b2, _) =>
      let score := minimax pid oid depth b2 false NEG_INF POS_INF
      if score > bs then bestLoop pid oid depth b rest c score (scoreReasoning score)
      else bestLoop pid oid depth b rest bm bs r

/-- The fixed center-first column preference order of the fallback branch. -/
def centerColumns : List Int := [3, 2, 4, 1, 5, 0, 6]

/-- `ConnectFourBot.getBestMove` with effective depth `maxDepth`. -/
def getBestMove (pid oid : String) (maxDepth : Nat) (b : Board) : BotMove :=
  let validMoves := getValidMoves b
  if validMoves.isEmpty then ⟨-1, NEG_INF, "No valid moves available"⟩
  else
    let winningMove := findImmediateWin pid b
    if winningMove ≠ -1 then ⟨winningMove, 1000, "Taking winning move"⟩
    else
      let blockingMove := findImmediateWin oid b
      if blockingMove ≠ -1 then ⟨blockingMove, 500, "Blocking opponent win"⟩
      else
        let res := bestLoop pid oid (maxDepth - 1) b validMoves
          (validMoves.headD 0) NEG_INF "Strategic move"
        if res.2.1 = NEG_INF then
          match centerColumns.find? (fun c => validMoves.contains c) with
          | some c => ⟨c, res.2.1, "Center column preference"⟩
          | none => ⟨res.1, res.2.1, res.2.2⟩
        else ⟨res.1, res.2.1, res.2.2⟩

end Bot

/-! ## GameService: session registry and lifecycle controller

Embedding of `GameService.ts`. JavaScript `Map`s become association lists
with unique keys (`mapGet` / `mapSet` / `mapDelete`); the in-place mutation
of a `Game` object held by the map becomes an explicit `mapSet` of the
updated record. Timestamps (`lastSeen`, `createdAt`, `endedAt`, move
timestamps), generated uuids (game and move ids are passed in or dropped)
and the external collaborators (database, analytics, player-stat store) are
outside the registry state. -/

/-- `Player` (`types/index.ts`), without the `lastSeen` timestamp. -/
structure Player where
  id : String
  username : String
  socketId : String
  gamesWon : Nat
  gamesLost : Nat
  isBot : Bool
  isConnected : Bool
  deriving Repr, DecidableEq

/-- `GameMove` (`types/index.ts`): the per-session fields of a move record
(uuid, gameId and timestamp are externally generated and dropped). -/
structure GameMove where
  playerId : String
  column : Int
  row : Nat
  moveNumber : Nat
  deriving Repr, DecidableEq

/-- `GameStatus` (`types/index.ts`). -/
inductive GameStatus where
  | WAITING
  | IN_PROGRESS
  | COMPLETED
  | ABANDONED
  deriving Repr, DecidableEq

/-- `Game` (`types/index.ts`), without timestamps and the constant
`isPublic` flag. -/
structure Game where
  id : String
  player1 : Player
  player2 : Player
  currentPlayer : String
  board : Board
  status : GameStatus
  winner : Option String
  moves : List GameMove
  deriving Repr, DecidableEq

/-- `MatchmakingQueue` entry (`types/index.ts`), without the timestamp. -/
structure QueueEntry where
  playerId : String
  username : String
  socketId : String
  deriving Repr, DecidableEq

/-- The four shared mutable registries owned by `GameService`. -/
structure GameServiceState where
  games : List (String × Game)
  waitingQueue : List QueueEntry
  playerGameMap : List (String × String)
  socketGameMap : List (String × String)
  deriving Repr, DecidableEq

/-- `Map.get`. -/
def mapGet {α : Type} (m : List (String × α)) (k : String) : Option α :=
  (m.find? (fun e => e.1 = k)).map (·.2)

/-- `Map.set`: overwrite, keeping keys unique. -/
def mapSet {α : Type} (m : List (String × α)) (k : String) (v : α) : List (String × α) :=
  (k, v) :: m.filter (fun e => ¬ e.1 = k)

/-- `Map.delete`. -/
def mapDelete {α : Type} (m : List (String × α)) (k : String) : List (String × α) :=
  m.filter (fun e => ¬ e.1 = k)

namespace GameService

open GameLogic

/-- The result record of `GameService.makeMove`. -/
structure MoveResult where
  success : Bool
  gameEnded : Bool
  winner : Option String
  endReason : Option String
  botMove : Bool
  error : Option String
  deriving Repr, DecidableEq

/-- A rejected move: `{ success: false, error }`. -/
def noMove (e : String) : MoveResult := ⟨false, false, none, none, false, some e⟩

/-- The index cleanup run when a session ends (`makeMove` win/draw branch and
`abandonGameIfPlayerNotReconnected`): both participant→session entries are
deleted, and each connection→session entry whose handle is non-empty
(JavaScript truthiness of `socketId`); the session itself stays in `games`. -/
def cleanupMaps (st : GameServiceState) (g : Game) : GameServiceState :=
  { st with
    playerGameMap := mapDelete (mapDelete st.playerGameMap g.player1.id) g.player2.id,
    socketGameMap :=
      let m1 := if g.player1.socketId ≠ "" then mapDelete st.socketGameMap g.player1.socketId
                else st.socketGameMap
      if g.player2.socketId ≠ "" then mapDelete m1 g.player2.socketId else m1 }

/-- `GameService.makeMove`. -/
def makeMoveS (st : GameServiceState) (gameId socketId : String) (column : Int) :
    MoveResult × GameServiceState :=
  match mapGet st.games gameId with
  | none => (noMove "Game not found", st)
  | some game =>
    if game.status ≠ GameStatus.IN_PROGRESS then (noMove "Game is not in progress", st)
    else
      let currentPlayer :=
        if game.currentPlayer = game.player1.id then game.player1 else game.player2
      if ¬currentPlayer.isBot ∧ currentPlayer.socketId ≠ socketId then
        (noMove "Not your turn", st)
      else if ¬ isValidMove game.board column then (noMove "Invalid move", st)
      else
        match GameLogic.makeMove game.board column currentPlayer.id with
        | none => (noMove "Failed to make move", st)
        | some (b2, row) =>
          let move : GameMove := ⟨currentPlayer.id, column, row, game.moves.length + 1⟩
          let winner := checkWinner b2
          let isDraw := winner = none ∧ isBoardFull b2
          if winner ≠ none ∨ isDraw then
            let g2 := { game with
              board := b2, moves := game.moves ++ [move],
              status := GameStatus.COMPLETED,
              winner := if winner ≠ none then winner else game.winner }
            let st2 := cleanupMaps { st with games := mapSet st.games gameId g2 } g2
            (⟨true, true, winner, some (if isDraw then "draw" else "win"), false, none⟩, st2)
          else
            let g2 := { game with
              board := b2, moves := game.moves ++ [move],
              currentPlayer :=
                if game.currentPlayer = game.player1.id then game.player2.id
                else game.player1.id }
            let nextPlayer :=
              if g2.currentPlayer = g2.player1.id then g2.player1 else g2.player2
            (⟨true, false, none, none, nextPlayer.isBot, none⟩,
             { st with games := mapSet st.games gameId g2 })

/-- The result record of `GameService.rejoinGame`. -/
structure RejoinResult where
  success : Bool
  playerId : Option String
  opponentId : Option String
  error : Option String
  deriving Repr, DecidableEq

/-- The index updates at the end of a successful `rejoinGame`. The stale
connection-handle cleanup reproduces the source: it searches the map's
*values* for one equal to `gameId` and then deletes that value as a *key*,
so the stale socket entry is in fact never removed. -/
def rejoinIndexUpdate (st : GameServiceState) (gameId socketId playerId : String)
    (g2 : Game) : GameServiceState :=
  let pm := mapSet st.playerGameMap playerId gameId
  let oldSocketId := ((st.socketGameMap.map (·.2)).find? (fun gid => gid = gameId))
  let sm := match oldSocketId with
    | some v => mapDelete st.socketGameMap v
    | none => st.socketGameMap
  { st with games := mapSet st.games gameId g2,
            playerGameMap := pm, socketGameMap := mapSet sm socketId gameId }

/-- `GameService.rejoinGame`: matched by username (`player1` checked first);
note the source performs no check of the session's status. -/
def rejoinGameS (st : GameServiceState) (gameId username socketId : String) :
    RejoinResult × GameServiceState :=
  match mapGet st.games gameId with
  | none => (⟨false, none, none, some "Game not found"⟩, st)
  | some game =>
    if game.player1.username = username then
      let g2 := { game with
        player1 := { game.player1 with socketId := socketId, isConnected := true } }
      (⟨true, some game.player1.id, some game.player2.id, none⟩,
       rejoinIndexUpdate st gameId socketId game.player1.id g2)
    else if game.player2.username = username then
      let g2 := { game with
        player2 := { game.player2 with socketId := socketId, isConnected := true } }
      (⟨true, some game.player2.id, some game.player1.id, none⟩,
       rejoinIndexUpdate st gameId socketId game.player2.id g2)
    else (⟨false, none, none, some "Player not found in this game"⟩, st)

/-- The result record of `GameService.handlePlayerDisconnection`. -/
structure DisconnectResult where
  gameAffected : Bool
  gameId : Option String
  disconnectedPlayer : Option Player
  deriving Repr, DecidableEq

/-- `GameService.handlePlayerDisconnection`: mark the participant owning the
lost connection handle as disconnected and drop the handle's index entry;
board, turn and move history are untouched. -/
def handleDisconnectS (st : GameServiceState) (socketId : String) :
    DisconnectResult × GameServiceState :=
  match mapGet st.socketGameMap socketId with
  | none => (⟨false, none, none⟩, st)
  | some gameId =>
    match mapGet st.games gameId with
    | none => (⟨false, none, none⟩, st)
    | some game =>
      if game.status ≠ GameStatus.IN_PROGRESS then (⟨false, none, none⟩, st)
      else if game.player1.socketId = socketId then
        let g2 := { game with player1 := { game.player1 with isConnected := false } }
        (⟨true, some gameId, some g2.player1⟩,
         { st with games := mapSet st.games gameId g2,
                   socketGameMap := mapDelete st.socketGameMap socketId })
      else if game.player2.socketId = socketId then
        let g2 := { game with player2 := { game.player2 with isConnected := false } }
        (⟨true, some gameId, some g2.player2⟩,
         { st with games := mapSet st.games gameId g2,
                   socketGameMap := mapDelete st.socketGameMap socketId })
      else (⟨false, none, none⟩, st)

/-- The result record of `GameService.abandonGameIfPlayerNotReconnected`. -/
structure AbandonResult where
  gameAbandoned : Bool
  winner : Option String
  deriving Repr, DecidableEq

/-- `GameService.abandonGameIfPlayerNotReconnected`: the abandonment
countdown's re-validating body. The winner field of the session is only
assigned when the opponent is human (`if (!opponent.isBot)` in the source). -/
def abandonS (st : GameServiceState) (gameId playerId : String) :
    AbandonResult × GameServiceState :=
  match mapGet st.games gameId with
  | none => (⟨false, none⟩, st)
  | some game =>
    if game.status ≠ GameStatus.IN_PROGRESS then (⟨false, none⟩, st)
    else
      let player := if game.player1.id = playerId then game.player1 else game.player2
      let opponent := if game.player1.id = playerId then game.player2 else game.player1
      if player.isConnected then (⟨false, none⟩, st)
      else
        let g2 := { game with
          status := GameStatus.ABANDONED,
          winner := if ¬opponent.isBot then some opponent.id else game.winner }
        (⟨true, some opponent.id⟩,
         cleanupMaps { st with games := mapSet st.games gameId g2 } g2)

/-- `GameService.getGame` (`|| null` becomes `Option`). -/
def getGame (st : GameServiceState) (gameId : String) : Option Game :=
  mapGet st.games gameId

/-- `GameService.createGame`: pair the dequeued entry (resolved to
`waitingPlayer` by the external player store) with `newPlayer`; the new
session starts `in_progress` with the waiting player to move. `gameId` is
the externally generated uuid. -/
def createGameS (gameId : String) (waitingQ : QueueEntry)
    (waitingPlayer newPlayer : Player) (st : GameServiceState) :
    Game × GameServiceState :=
  let game : Game :=
    ⟨gameId, { waitingPlayer with socketId := waitingQ.socketId }, newPlayer,
     waitingPlayer.id, createEmptyBoard, GameStatus.IN_PROGRESS, none, []⟩
  (game,
   { st with
     games := mapSet st.games gameId game,
     playerGameMap :=
       mapSet (mapSet st.playerGameMap waitingPlayer.id gameId) newPlayer.id gameId,
     socketGameMap :=
       let m := if waitingQ.socketId ≠ "" then mapSet st.socketGameMap waitingQ.socketId gameId
                else st.socketGameMap
       mapSet m newPlayer.socketId gameId })

/-- The outcome of `GameService.addPlayerToQueue`. -/
inductive QueueOutcome where
  | failed (msg : String)
  | waiting
  | started (g : Game)
  deriving Repr, DecidableEq

/-- `GameService.addPlayerToQueue`: if anyone is waiting, dequeue the oldest
entry and create a game at once (no identity check against the joiner);
otherwise enqueue. `lookupPlayer` is the external player store and
`newGameId` the externally generated uuid. The failure branch keeps the
already-shifted queue, as the source's `shift()` happens before the throw. -/
def addPlayerToQueueS (lookupPlayer : String → Option Player) (newGameId : String)
    (player : Player) (st : GameServiceState) : QueueOutcome × GameServiceState :=
  match st.waitingQueue with
  | [] =>
    (QueueOutcome.waiting,
     { st with waitingQueue := st.waitingQueue ++ [⟨player.id, player.username, player.socketId⟩] })
  | w :: rest =>
    let st1 := { st with waitingQueue := rest }
    match lookupPlayer w.playerId with
    | none => (QueueOutcome.failed "Waiting player not found", st1)
    | some waitingPlayer =>
      let (game, st2) := createGameS newGameId w waitingPlayer player st1
      (QueueOutcome.started game, st2)

end GameService

/-! ## Concrete fixtures used by witnesses and counterexamples -/

/-- An empty column. -/
def colE : List Cell := List.replicate 6 none

/-- A board where the opponent "B" has three in column 0 and can win there,
while "A" has no immediate win. -/
def blockBoard : Board :=
  [[some "B", some "B", some "B", none, none, none],
   [some "A", some "A", none, none, none, none],
   colE, colE, colE, colE, colE]

/-- A board with only columns 0 and 3 playable (all other columns full, no
four-in-a-row anywhere) on which every root score of the minimax phase is
nonpositive. -/
def noPositiveBoard : Board :=
  [colE,
   [some "B", some "B", some "A", some "A", some "B", some "B"],
   [some "B", some "B", some "A", some "A", some "B", some "B"],
   colE,
   [some "A", some "B", some "B", some "A", some "A", some "B"],
   [some "B", some "A", some "A", some "B", some "B", some "A"],
   [some "A", some "B", some "A", some "B", some "A", some "B"]]

/-- A connected human participant. -/
def pAlice : Player := ⟨"p1", "alice", "s1", 0, 0, false, true⟩

/-- A second connected human participant. -/
def pBob : Player := ⟨"p2", "bob", "s2", 0, 0, false, true⟩

/-- The synthesized AI participant of a bot game (`createBotPlayer`):
empty connection handle, `isBot` set. -/
def pBot : Player := ⟨"bot_g1", "AI Bot", "", 0, 0, true, true⟩

/-- An in-progress bot game where it is the bot's turn. -/
def botTurnGame : Game :=
  ⟨"g1", pAlice, pBot, "bot_g1", GameLogic.createEmptyBoard,
   GameStatus.IN_PROGRESS, none, []⟩

/-- Registry state holding `botTurnGame`. -/
def stBotTurn : GameServiceState :=
  ⟨[("g1", botTurnGame)], [], [("p1", "g1")], [("s1", "g1")]⟩

/-- A completed two-human game. -/
def endedGame : Game :=
  ⟨"g2", pAlice, pBob, "p1", GameLogic.createEmptyBoard,
   GameStatus.COMPLETED, some "p2", []⟩

/-- Registry state holding only the completed `endedGame`. -/
def stEnded : GameServiceState := ⟨[("g2", endedGame)], [], [], []⟩

/-- An in-progress bot game whose human participant is disconnected. -/
def discBotGame : Game :=
  ⟨"g3", { pAlice with isConnected := false }, pBot, "p1",
   GameLogic.createEmptyBoard, GameStatus.IN_PROGRESS, none, []⟩

/-- Registry state holding `discBotGame`. -/
def stDiscBot : GameServiceState := ⟨[("g3", discBotGame)], [], [("p1", "g3")], []⟩

/-- Registry state where `pAlice` already waits in the matchmaking queue. -/
def stQueued : GameServiceState := ⟨[], [⟨"p1", "alice", "s1"⟩], [], []⟩

/-- The external player store resolving `pAlice`'s id. -/
def lookupAlice : String → Option Player :=
  fun id => if id = "p1" then some pAlice else none

/-- The game produced when `pAlice` joins while her own entry waits:
both sides are the same participant. -/
def selfPairedGame : Game :=
  ⟨"g9", pAlice, pAlice, "p1", GameLogic.createEmptyBoard,
   GameStatus.IN_PROGRESS, none, []⟩

/-- An in-progress two-human game whose human participant 1 is
disconnected. -/
def discHumanGame : Game :=
  ⟨"g5", { pAlice with isConnected := false }, pBob, "p1",
   GameLogic.createEmptyBoard, GameStatus.IN_PROGRESS, none, []⟩

/-- Registry state holding `discHumanGame`. -/
def stDiscHuman : GameServiceState :=
  ⟨[("g5", discHumanGame)], [], [("p1", "g5"), ("p2", "g5")], [("s2", "g5")]⟩

/-- A board where participant id "p1" has three in column 0. -/
def nearWinBoard : Board :=
  [[some "p1", some "p1", some "p1", none, none, none],
   colE, colE, colE, colE, colE, colE]

/-- A game one move from being won by participant "p1", who is to move. -/
def nearWinGame : Game :=
  ⟨"g6", pAlice, pBob, "p1", nearWinBoard, GameStatus.IN_PROGRESS, none, []⟩

/-- Registry state holding `nearWinGame`, with all index entries present. -/
def stNearWin : GameServiceState :=
  ⟨[("g6", nearWinGame)], [], [("p1", "g6"), ("p2", "g6")],
   [("s1", "g6"), ("s2", "g6")]⟩

/-- An in-progress two-human game used by rejection witnesses, with "bob"
to move. -/
def liveGame : Game :=
  ⟨"g4", pAlice, pBob, "p2", GameLogic.createEmptyBoard,
   GameStatus.IN_PROGRESS, none, []⟩

/-- Registry state holding `liveGame` (and `endedGame`). -/
def stLive : GameServiceState :=
  ⟨[("g4", liveGame), ("g2", endedGame)], [],
   [("p1", "g4"), ("p2", "g4")], [("s1", "g4"), ("s2", "g4")]⟩

section Sanity

open GameLogic

example : isValidMove createEmptyBoard 3 = true := by decide
example : isValidMove createEmptyBoard 7 = false := by decide
example : isValidMove createEmptyBoard (-1) = false := by decide
example : (makeMove createEmptyBoard 3 "A").map (·.2) = some 0 := by decide
example : checkWinner createEmptyBoard = none := by decide
example : isBoardFull createEmptyBoard = false := by decide
example : getValidMoves createEmptyBoard = [0, 1, 2, 3, 4, 5, 6] := by decide

end Sanity

/-! ## Helper lemmas -/

theorem getD_set_self {α : Type} (l : List α) (i : Nat) (v d : α) (h : i < l.length) :
    (l.set i v).getD i d = v := by
  rw [List.getD_eq_getElem?_getD, List.getElem?_set_self h]; rfl

theorem getD_set_ne {α : Type} (l : List α) (i j : Nat) (v d : α) (h : i ≠ j) :
    (l.set i v).getD j d = l.getD j d := by
  rw [List.getD_eq_getElem?_getD, List.getElem?_set_ne h, ← List.getD_eq_getElem?_getD]

theorem getD_of_le {α : Type} (l : List α) (i : Nat) (d : α) (h : l.length ≤ i) :
    l.getD i d = d :=
  List.getD_eq_default _ _ h

namespace GameLogic

theorem lowestEmpty_spec :
    ∀ (l : List Cell) (r : Nat), lowestEmpty l = some r →
      r < l.length ∧ l.getD r none = none ∧ ∀ r' < r, l.getD r' none ≠ none := by
  intro l
  induction l with
  | nil => intro r h; simp [lowestEmpty] at h
  | cons a rest ih =>
    intro r h
    match a with
    | none =>
      simp only [lowestEmpty] at h
      cases h
      exact ⟨Nat.succ_pos _, rfl, fun r' hr' => absurd hr' (Nat.not_lt_zero _)⟩
    | some x =>
      simp only [lowestEmpty, Option.map_eq_some'] at h
      obtain ⟨r0, hr0, rfl⟩ := h
      obtain ⟨h1, h2, h3⟩ := ih r0 hr0
      refine ⟨Nat.succ_lt_succ h1, h2, ?_⟩
      intro r' hr'
      match r' with
      | 0 => simp
      | r'' + 1 => exact h3 r'' (Nat.lt_of_succ_lt_succ hr')

theorem makeMove_eq {b : Board} {col : Int} {pid : String} {b2 : Board} {r : Nat}
    (h : makeMove b col pid = some (b2, r)) :
    isValidMove b col = true ∧
    lowestEmpty (b.getD col.toNat []) = some r ∧
    b2 = b.set col.toNat ((b.getD col.toNat []).set r (some pid)) := by
  unfold makeMove at h
  split at h
  · exact absurd h (by simp)
  · next hval =>
    refine ⟨by simpa using hval, ?_⟩
    split at h
    · next hle => cases h; exact ⟨hle, rfl⟩
    · exact absurd h (by simp)

theorem getCell_empty (c r : Nat) : getCell createEmptyBoard c r = none := by
  unfold getCell createEmptyBoard COLS ROWS
  simp only [List.getD_eq_getElem?_getD, List.getElem?_replicate]
  by_cases hc : c < 7
  · simp only [if_pos hc, Option.getD_some, List.getElem?_replicate]
    by_cases hr : r < 6
    · simp [if_pos hr]
    · simp [if_neg hr]
  · simp [if_neg hc]

theorem gravity_empty : gravityOk createEmptyBoard := by
  intro c r1 r2 _ h2
  exact absurd (getCell_empty c r2) h2

theorem gravity_step {b : Board} {col : Int} {pid : String} {b2 : Board} {r : Nat}
    (hg : gravityOk b) (h : makeMove b col pid = some (b2, r)) : gravityOk b2 := by
  obtain ⟨-, hle, hb2⟩ := makeMove_eq h
  obtain ⟨hrlen, hrnone, hbelow⟩ := lowestEmpty_spec _ _ hle
  have hcl : col.toNat < b.length := by
    by_contra hcl
    rw [getD_of_le _ _ _ (Nat.le_of_not_lt hcl)] at hle
    simp [lowestEmpty] at hle
  intro c r1 r2 h12 hocc
  subst hb2
  by_cases hc : c = col.toNat
  · have hcol : (b.set col.toNat ((b.getD col.toNat []).set r (some pid))).getD c [] =
        (b.getD col.toNat []).set r (some pid) := by
      rw [hc]; exact getD_set_self _ _ _ _ hcl
    unfold getCell at hocc ⊢
    rw [hcol] at hocc ⊢
    by_cases hr1 : r1 = r
    · subst hr1
      rw [getD_set_self _ _ _ _ hrlen]
      simp
    · rw [getD_set_ne _ _ _ _ _ (fun hrr => hr1 hrr.symm)]
      by_cases hr2 : r2 = r
      · subst hr2
        exact hbelow r1 h12
      · rw [getD_set_ne _ _ _ _ _ (fun hrr => hr2 hrr.symm)] at hocc
        exact hg col.toNat r1 r2 h12 hocc
  · have hcol : (b.set col.toNat ((b.getD col.toNat []).set r (some pid))).getD c [] =
        b.getD c [] := getD_set_ne _ _ _ _ _ (fun hrr => hc hrr.symm)
    unfold getCell at hocc ⊢
    rw [hcol] at hocc ⊢
    exact hg c r1 r2 h12 hocc

theorem gravity_foldl :
    ∀ (ms : List (Int × String)) (b : Board), gravityOk b →
      gravityOk (ms.foldl applyMoveOrKeep b) := by
  intro ms
  induction ms with
  | nil => intro b hb; exact hb
  | cons m rest ih =>
    intro b hb
    have hstep : gravityOk (applyMoveOrKeep b m) := by
      unfold applyMoveOrKeep
      split
      · next b2 r h => exact gravity_step hb h
      · exact hb
    exact ih _ hstep

end GameLogic

theorem find?_filter_imp {α : Type} (p q : α → Bool) (l : List α)
    (h : ∀ a, p a = true → q a = true) : (l.filter q).find? p = l.find? p := by
  induction l with
  | nil => rfl
  | cons a rest ih =>
    by_cases hp : p a = true
    · rw [List.filter_cons_of_pos (h a hp), List.find?_cons_of_pos _ hp,
        List.find?_cons_of_pos _ hp]
    · by_cases hq : q a = true
      · rw [List.filter_cons_of_pos hq, List.find?_cons_of_neg _ hp,
          List.find?_cons_of_neg _ hp, ih]
      · rw [List.filter_cons_of_neg (by simpa using hq), List.find?_cons_of_neg _ hp, ih]

theorem find?_filter_excl {α : Type} (p q : α → Bool) (l : List α)
    (h : ∀ a, p a = true → q a = false) : (l.filter q).find? p = none := by
  induction l with
  | nil => rfl
  | cons a rest ih =>
    by_cases hq : q a = true
    · rw [List.filter_cons_of_pos hq, List.find?_cons_of_neg, ih]
      intro hp
      rw [h a hp] at hq
      cases hq
    · rw [List.filter_cons_of_neg (by simpa using hq), ih]

theorem mapGet_set_self {α : Type} (m : List (String × α)) (k : String) (v : α) :
    mapGet (mapSet m k v) k = some v := by
  unfold mapGet mapSet
  rw [List.find?_cons_of_pos _ (by simp)]
  rfl

theorem mapGet_set_ne {α : Type} (m : List (String × α)) (k k' : String) (v : α)
    (h : k' ≠ k) : mapGet (mapSet m k v) k' = mapGet m k' := by
  unfold mapGet mapSet
  rw [List.find?_cons_of_neg _ (by simpa using h.symm)]
  rw [find?_filter_imp]
  intro a ha
  simp at ha ⊢
  rw [ha]
  exact h

theorem mapGet_delete_self {α : Type} (m : List (String × α)) (k : String) :
    mapGet (mapDelete m k) k = none := by
  unfold mapGet mapDelete
  rw [find?_filter_excl]
  · rfl
  · intro a ha
    simp at ha ⊢
    exact ha

theorem mapGet_delete_ne {α : Type} (m : List (String × α)) (k k' : String)
    (h : k' ≠ k) : mapGet (mapDelete m k) k' = mapGet m k' := by
  unfold mapGet mapDelete
  rw [find?_filter_imp]
  intro a ha
  simp at ha ⊢
  rw [ha]
  exact h

theorem mapGet_delete_delete_left {α : Type} (m : List (String × α)) (a b : String) :
    mapGet (mapDelete (mapDelete m a) b) a = none := by
  rcases eq_or_ne a b with rfl | h
  · exact mapGet_delete_self _ _
  · rw [mapGet_delete_ne _ _ _ h, mapGet_delete_self]

namespace GameService

theorem makeMoveS_reject_not_in_progress {st : GameServiceState} {gid : String} {g : Game}
    (sid : String) (col : Int) (hg : mapGet st.games gid = some g)
    (hs : g.status ≠ GameStatus.IN_PROGRESS) :
    makeMoveS st gid sid col = (noMove "Game is not in progress", st) := by
  unfold makeMoveS
  rw [hg]
  simp only [if_pos hs]

/-- The `games` registry after `cleanupMaps` is untouched, and both
participant entries and both non-empty connection entries are gone. -/
theorem cleanupMaps_spec (st : GameServiceState) (g : Game) :
    (cleanupMaps st g).games = st.games ∧
    (cleanupMaps st g).waitingQueue = st.waitingQueue ∧
    mapGet (cleanupMaps st g).playerGameMap g.player1.id = none ∧
    mapGet (cleanupMaps st g).playerGameMap g.player2.id = none ∧
    (g.player1.socketId ≠ "" →
      mapGet (cleanupMaps st g).socketGameMap g.player1.socketId = none) ∧
    (g.player2.socketId ≠ "" →
      mapGet (cleanupMaps st g).socketGameMap g.player2.socketId = none) := by
  refine ⟨rfl, rfl, mapGet_delete_delete_left _ _ _, mapGet_delete_self _ _, ?_, ?_⟩
  · intro h1
    unfold cleanupMaps
    rw [if_pos h1]
    by_cases h2 : g.player2.socketId ≠ ""
    · rw [if_pos h2]
      exact mapGet_delete_delete_left _ _ _
    · rw [if_neg h2]
      exact mapGet_delete_self _ _
  · intro h2
    unfold cleanupMaps
    rw [if_pos h2]
    exact mapGet_delete_self _ _

end GameService

namespace GameLogic

theorem lowestEmpty_eq_none {l : List Cell} (h : lowestEmpty l = none) :
    ∀ i < l.length, l.getD i none ≠ none := by
  induction l with
  | nil => intro i hi; cases hi
  | cons a rest ih =>
    intro i hi
    match a with
    | none => simp [lowestEmpty] at h
    | some x =>
      simp only [lowestEmpty, Option.map_eq_none'] at h
      match i with
      | 0 => simp
      | i + 1 => exact ih h i (Nat.lt_of_succ_lt_succ hi)

theorem mem_getValidMoves {b : Board} {c : Int} (h : c ∈ getValidMoves b) :
    isValidMove b c = true := by
  unfold getValidMoves at h
  rw [List.mem_filterMap] at h
  obtain ⟨n, -, hn⟩ := h
  by_cases hv : isValidMove b (n : Int) = true
  · rw [if_pos hv] at hn
    cases hn
    exact hv
  · rw [if_neg hv] at hn
    cases hn

theorem isValidMove_isSome {b : Board} {c : Int} (pid : String)
    (hwf : wellFormed b) (h : isValidMove b c = true) :
    (makeMove b c pid).isSome = true := by
  have hval := h
  unfold isValidMove at h
  split at h
  · cases h
  · next hrange =>
    have hc7 : c.toNat < 7 := by
      simp only [COLS, Bool.or_eq_true, decide_eq_true_eq, not_or, not_lt, not_le] at hrange
      omega
    have hcol : (b.getD c.toNat []) ∈ b := by
      rw [List.getD_eq_getElem _ _ (by rw [hwf.1]; exact hc7)]
      exact List.getElem_mem _
    have hlen : (b.getD c.toNat []).length = 6 := hwf.2 _ hcol
    have htop : (b.getD c.toNat []).getD (ROWS - 1) none = none := by
      simpa [getCell] using h
    rcases hle : lowestEmpty (b.getD c.toNat []) with _ | r
    · exact absurd htop (lowestEmpty_eq_none hle (ROWS - 1) (by rw [hlen]; decide))
    · have hneg : ¬((!isValidMove b c) = true) := by rw [hval]; decide
      unfold makeMove
      rw [if_neg hneg, hle]
      rfl

theorem makeMove_wellFormed {b : Board} {c : Int} {pid : String} {b2 : Board} {r : Nat}
    (hwf : wellFormed b) (h : makeMove b c pid = some (b2, r)) : wellFormed b2 := by
  obtain ⟨-, hle, hb2⟩ := makeMove_eq h
  subst hb2
  constructor
  · rw [List.length_set]
    exact hwf.1
  · intro col hcol
    rcases List.mem_or_eq_of_mem_set hcol with hmem | rfl
    · exact hwf.2 _ hmem
    · rw [List.length_set]
      have hlt : c.toNat < b.length := by
        by_contra hcl
        rw [getD_of_le _ _ _ (Nat.le_of_not_lt hcl)] at hle
        simp [lowestEmpty] at hle
      have : (b.getD c.toNat []) ∈ b := by
        rw [List.getD_eq_getElem _ _ hlt]
        exact List.getElem_mem _
      exact hwf.2 _ this

theorem getValidMoves_ne_nil_of_not_full {b : Board}
    (h : isBoardFull b = false) : getValidMoves b ≠ [] := by
  unfold isBoardFull at h
  rw [List.all_eq_false] at h
  obtain ⟨col, hmem, hcol⟩ := h
  rw [List.mem_range] at hmem
  have hrange : ¬(((col : Int) < 0 || (COLS : Int) ≤ (col : Int)) = true) := by
    simp only [COLS] at hmem ⊢
    simp
    omega
  have hval : isValidMove b (col : Int) = true := by
    unfold isValidMove
    rw [if_neg hrange]
    simpa using hcol
  have : (col : Int) ∈ getValidMoves b := by
    unfold getValidMoves
    rw [List.mem_filterMap]
    refine ⟨(col : Int), ?_, by rw [if_pos hval]⟩
    show (col : Int) ∈ (List.range COLS).map Int.ofNat
    exact List.mem_map.mpr ⟨col, List.mem_range.mpr hmem, rfl⟩
  intro hnil
  rw [hnil] at this
  cases this

theorem evaluateWindow_ge (b : Board) (sc sr : Nat) (dc dr : Int) (pid oid : String) :
    -1000 ≤ evaluateWindow b sc sr dc dr pid oid := by
  unfold evaluateWindow
  dsimp only
  repeat' split
  all_goals norm_num

theorem sum_map_ge {α : Type} (l : List α) (f : α → Int) (h : ∀ x ∈ l, -1000 ≤ f x) :
    -(1000 * (l.length : Int)) ≤ (l.map f).sum := by
  induction l with
  | nil => simp
  | cons a rest ih =>
    simp only [List.map_cons, List.sum_cons, List.length_cons]
    have h1 := h a (List.mem_cons_self _ _)
    have h2 := ih (fun x hx => h x (List.mem_cons_of_mem _ hx))
    push_cast
    linarith

theorem evaluateBoard_ge (b : Board) (pid oid : String) :
    -69000 ≤ evaluateBoard b pid oid := by
  unfold evaluateBoard
  split
  · norm_num
  · split
    · norm_num
    · split
      · norm_num
      · have h := sum_map_ge evalWindows
          (fun w => evaluateWindow b w.1 w.2.1 w.2.2.1 w.2.2.2 pid oid)
          (fun x _ => evaluateWindow_ge b x.1 x.2.1 x.2.2.1 x.2.2.2 pid oid)
        have hlen : (evalWindows.length : Int) = 69 := by rfl
        rw [hlen] at h
        linarith

end GameLogic

theorem foldl_max_init_le (l : List Int) (s : Int) : s ≤ l.foldl max s := by
  induction l generalizing s with
  | nil => exact le_refl s
  | cons a rest ih => exact le_trans (le_max_left s a) (ih (max s a))

theorem foldl_max_mem_le (l : List Int) (s x : Int) (h : x ∈ l) : x ≤ l.foldl max s := by
  induction l generalizing s with
  | nil => cases h
  | cons a rest ih =>
    rcases List.mem_cons.mp h with rfl | hx
    · exact le_trans (le_max_right s x) (foldl_max_init_le _ _)
    · exact ih _ hx

namespace Bot

open GameLogic

theorem abMaxLoop_ge_best (step : Board → Int → Int → Int) (pid : String) (b : Board) :
    ∀ (l : List Int) (best alpha beta : Int),
      best ≤ abMaxLoop step pid b l best alpha beta := by
  intro l
  induction l with
  | nil => intro best alpha beta; exact le_refl _
  | cons c rest ih =>
    intro best alpha beta
    simp only [abMaxLoop]
    split
    · exact ih _ _ _
    · split
      · exact le_max_left _ _
      · exact le_trans (le_max_left best _) (ih _ _ _)

theorem abMaxLoop_gt (step : Board → Int → Int → Int) (pid : String) (b : Board)
    (c : Int) (rest : List Int) (b2 : Board) (r : Nat) (alpha beta : Int)
    (hm : makeMove b c pid = some (b2, r)) (hstep : NEG_INF < step b2 alpha beta) :
    NEG_INF < abMaxLoop step pid b (c :: rest) NEG_INF alpha beta := by
  simp only [abMaxLoop, hm]
  split
  · exact lt_of_lt_of_le hstep (le_max_right _ _)
  · exact lt_of_lt_of_le (lt_of_lt_of_le hstep (le_max_right NEG_INF _))
      (abMaxLoop_ge_best _ _ _ _ _ _ _)

theorem abMinLoop_gt (step : Board → Int → Int → Int) (oid : String) (b : Board) :
    ∀ (l : List Int) (best alpha beta : Int),
      NEG_INF < best →
      (∀ c ∈ l, ∀ b2 r, makeMove b c oid = some (b2, r) →
        ∀ a' β', NEG_INF < step b2 a' β') →
      NEG_INF < abMinLoop step oid b l best alpha beta := by
  intro l
  induction l with
  | nil => intro best alpha beta hb _; exact hb
  | cons c rest ih =>
    intro best alpha beta hb hstep
    simp only [abMinLoop]
    split
    · exact ih _ _ _ hb (fun c' hc' => hstep c' (List.mem_cons_of_mem _ hc'))
    · next b2 r heq =>
      split
      · exact lt_min hb (hstep c (List.mem_cons_self _ _) b2 r heq _ _)
      · exact ih _ _ _ (lt_min hb (hstep c (List.mem_cons_self _ _) b2 r heq _ _))
          (fun c' hc' => hstep c' (List.mem_cons_of_mem _ hc'))

theorem minimax_gt_NEG_INF (pid oid : String) :
    ∀ (d : Nat) (b : Board) (isMax : Bool) (alpha beta : Int),
      wellFormed b → d ≤ 100 →
      NEG_INF < minimax pid oid d b isMax alpha beta := by
  intro d
  induction d with
  | zero =>
    intro b isMax alpha beta hwf _
    simp only [minimax]
    split
    · norm_num [NEG_INF]
    · split
      · norm_num [NEG_INF]
      · have h := evaluateBoard_ge b pid oid
        have hv : NEG_INF = -(1000000000 : Int) := by norm_num [NEG_INF]
        rw [hv]
        linarith
  | succ d ih =>
    intro b isMax alpha beta hwf hd
    have hv : NEG_INF = -(1000000000 : Int) := by norm_num [NEG_INF]
    simp only [minimax]
    split
    · have hdn : (0 : Int) ≤ (d : Int) := Int.natCast_nonneg d
      rw [hv]
      linarith
    · split
      · have hdn : (d : Int) ≤ 100 := by exact_mod_cast le_trans (Nat.le_of_succ_le hd) (by norm_num)
        rw [hv]
        linarith
      · split
        · have h := evaluateBoard_ge b pid oid
          rw [hv]
          linarith
        · split
          · next hnf _ =>
            have hfull : isBoardFull b = false := by
              revert hnf
              cases isBoardFull b <;> simp
            have hne := getValidMoves_ne_nil_of_not_full hfull
            rcases hl : getValidMoves b with _ | ⟨c, rest⟩
            · exact absurd hl hne
            · have hval := mem_getValidMoves (hl ▸ List.mem_cons_self c rest)
              have hsome := isValidMove_isSome pid hwf hval
              rcases hm : makeMove b c pid with _ | ⟨b2, r⟩
              · rw [hm] at hsome; cases hsome
              · exact abMaxLoop_gt _ pid b c rest b2 r alpha beta hm
                  (ih b2 false alpha beta (makeMove_wellFormed hwf hm)
                    (Nat.le_of_succ_le hd))
          · apply abMinLoop_gt
            · norm_num [POS_INF, NEG_INF]
            · intro c hc b2 r hm a' β'
              exact ih b2 true a' β' (makeMove_wellFormed hwf hm) (Nat.le_of_succ_le hd)

theorem bestLoop_argmax (pid oid : String) (d : Nat) (b : Board) :
    ∀ (l : List Int) (bm bs : Int) (r : String),
      (∀ c ∈ l, (makeMove b c pid).isSome = true) →
      (bestLoop pid oid d b l bm bs r).2.1 =
        (l.map (rootScore pid oid d b)).foldl max bs ∧
      ((bestLoop pid oid d b l bm bs r).2.1 = bs →
        (bestLoop pid oid d b l bm bs r).1 = bm) ∧
      (bs < (bestLoop pid oid d b l bm bs r).2.1 →
        l.find? (fun c => rootScore pid oid d b c = (bestLoop pid oid d b l bm bs r).2.1) =
          some (bestLoop pid oid d b l bm bs r).1) := by
  intro l
  induction l with
  | nil =>
    intro bm bs r _
    exact ⟨rfl, fun _ => rfl, fun h => absurd h (lt_irrefl bs)⟩
  | cons c rest ih =>
    intro bm bs r hl
    have hcm := hl c (List.mem_cons_self _ _)
    rcases hm : makeMove b c pid with _ | ⟨b2, row⟩
    · rw [hm] at hcm; cases hcm
    · have hrs : rootScore pid oid d b c = minimax pid oid d b2 false NEG_INF POS_INF := by
        unfold rootScore; rw [hm]
      have hrest : ∀ c' ∈ rest, (makeMove b c' pid).isSome = true :=
        fun c' hc' => hl c' (List.mem_cons_of_mem _ hc')
      have hstep : bestLoop pid oid d b (c :: rest) bm bs r =
          (if minimax pid oid d b2 false NEG_INF POS_INF > bs
           then bestLoop pid oid d b rest c (minimax pid oid d b2 false NEG_INF POS_INF)
             (scoreReasoning (minimax pid oid d b2 false NEG_INF POS_INF))
           else bestLoop pid oid d b rest bm bs r) := by
        simp only [bestLoop, hm]
      rw [hstep]
      by_cases hgt : minimax pid oid d b2 false NEG_INF POS_INF > bs
      · rw [if_pos hgt]
        obtain ⟨ih1, ih2, ih3⟩ := ih c (minimax pid oid d b2 false NEG_INF POS_INF)
          (scoreReasoning (minimax pid oid d b2 false NEG_INF POS_INF)) hrest
        refine ⟨?_, ?_, ?_⟩
        · rw [List.map_cons, List.foldl_cons, hrs, max_eq_right (le_of_lt hgt)]
          exact ih1
        · intro he
          exfalso
          have h1 : minimax pid oid d b2 false NEG_INF POS_INF ≤
              (bestLoop pid oid d b rest c (minimax pid oid d b2 false NEG_INF POS_INF)
                (scoreReasoning (minimax pid oid d b2 false NEG_INF POS_INF))).2.1 := by
            rw [ih1]
            exact foldl_max_init_le _ _
          rw [he] at h1
          exact absurd h1 (not_le.mpr hgt)
        · intro hlt
          by_cases hceq : rootScore pid oid d b c =
              (bestLoop pid oid d b rest c (minimax pid oid d b2 false NEG_INF POS_INF)
                (scoreReasoning (minimax pid oid d b2 false NEG_INF POS_INF))).2.1
          · have hbm : (bestLoop pid oid d b rest c
                (minimax pid oid d b2 false NEG_INF POS_INF)
                (scoreReasoning (minimax pid oid d b2 false NEG_INF POS_INF))).1 = c :=
              ih2 (hceq.symm.trans hrs)
            rw [List.find?_cons_of_pos _ (by simpa using hceq), hbm]
          · rw [List.find?_cons_of_neg _ (by simpa using hceq)]
            apply ih3
            have h2 : minimax pid oid d b2 false NEG_INF POS_INF ≤
                (bestLoop pid oid d b rest c (minimax pid oid d b2 false NEG_INF POS_INF)
                  (scoreReasoning (minimax pid oid d b2 false NEG_INF POS_INF))).2.1 := by
              rw [ih1]
              exact foldl_max_init_le _ _
            rcases lt_or_eq_of_le h2 with h3 | h3
            · exact h3
            · exact absurd (hrs.trans h3) hceq
      · rw [if_neg hgt]
        obtain ⟨ih1, ih2, ih3⟩ := ih bm bs r hrest
        refine ⟨?_, ih2, ?_⟩
        · rw [List.map_cons, List.foldl_cons, hrs, max_eq_left (not_lt.mp hgt)]
          exact ih1
        · intro hlt
          have hne : ¬(rootScore pid oid d b c =
              (bestLoop pid oid d b rest bm bs r).2.1) := by
            rw [hrs]
            intro he
            have hle : (bestLoop pid oid d b rest bm bs r).2.1 ≤ bs := he ▸ not_lt.mp hgt
            exact absurd hlt (not_lt.mpr hle)
          rw [List.find?_cons_of_neg _ (by simpa using hne)]
          exact ih3 hlt

theorem findWinAux_spec (pid : String) (b : Board) :
    ∀ l : List Int, findWinAux pid b l ≠ -1 →
      findWinAux pid b l ∈ l ∧
      ∃ b2 r, makeMove b (findWinAux pid b l) pid = some (b2, r) ∧
        checkWinner b2 = some pid := by
  intro l
  induction l with
  | nil => intro h; exact absurd rfl h
  | cons c rest ih =>
    intro h
    rcases hm : makeMove b c pid with _ | ⟨b2, r⟩
    · have he : findWinAux pid b (c :: rest) = findWinAux pid b rest := by
        simp [findWinAux, hm]
      rw [he] at h ⊢
      obtain ⟨h1, h2⟩ := ih h
      exact ⟨List.mem_cons_of_mem _ h1, h2⟩
    · by_cases hw : checkWinner b2 = some pid
      · have he : findWinAux pid b (c :: rest) = c := by
          simp [findWinAux, hm, hw]
        rw [he]
        exact ⟨List.mem_cons_self _ _, b2, r, hm, hw⟩
      · have he : findWinAux pid b (c :: rest) = findWinAux pid b rest := by
          simp [findWinAux, hm, hw]
        rw [he] at h ⊢
        obtain ⟨h1, h2⟩ := ih h
        exact ⟨List.mem_cons_of_mem _ h1, h2⟩

end Bot

/-! ## Claim theorems -/

open GameLogic in
/-- C5. For every sequence of legal moves applied with `applyMove` starting
from the empty board, each move fills the lowest empty row of its column, so
after every move each column's occupied cells are contiguous from row 0
upward (no occupied cell above an empty cell); `applyMove` on an illegal
column is a no-op reporting failure. -/
theorem C5_gravity_invariant :
    (∀ ms : List (Int × String), gravityOk (applySeq ms)) ∧
    (∀ (b : Board) (col : Int) (pid : String),
      isValidMove b col = false → makeMove b col pid = none) ∧
    (∀ (b : Board) (col : Int) (pid : String) (b2 : Board) (r : Nat),
      makeMove b col pid = some (b2, r) →
        getCell b col.toNat r = none ∧
        (∀ r' < r, getCell b col.toNat r' ≠ none) ∧
        getCell b2 col.toNat r = some pid) := by
  refine ⟨fun ms => gravity_foldl ms _ gravity_empty, ?_, ?_⟩
  · intro b col pid hval
    unfold makeMove
    rw [hval]
    rfl
  · intro b col pid b2 r h
    obtain ⟨-, hle, hb2⟩ := makeMove_eq h
    obtain ⟨hrlen, hrnone, hbelow⟩ := lowestEmpty_spec _ _ hle
    have hcl : col.toNat < b.length := by
      by_contra hcl
      rw [getD_of_le _ _ _ (Nat.le_of_not_lt hcl)] at hle
      simp [lowestEmpty] at hle
    refine ⟨hrnone, hbelow, ?_⟩
    subst hb2
    unfold getCell
    rw [getD_set_self _ _ _ _ hcl, getD_set_self _ _ _ _ hrlen]

open GameLogic in
/-- Witness for C5 at concrete inputs: two stacked moves in column 3 satisfy
gravity, an out-of-range column is rejected, and a concrete successful move
fills the lowest empty row. -/
theorem C5_gravity_invariant_witness :
    gravityOk (applySeq [((3 : Int), "A"), ((3 : Int), "B")]) ∧
    (isValidMove createEmptyBoard (-1) = false ∧ makeMove createEmptyBoard (-1) "A" = none) ∧
    (makeMove createEmptyBoard 3 "A" =
        some (applySeq [((3 : Int), "A")], 0) ∧
      getCell createEmptyBoard 3 0 = none ∧
      getCell (applySeq [((3 : Int), "A")]) 3 0 = some "A") := by
  refine ⟨C5_gravity_invariant.1 _, ⟨by decide, C5_gravity_invariant.2.1 _ _ "A" (by decide)⟩, ?_⟩
  have h : makeMove createEmptyBoard 3 "A" = some (applySeq [((3 : Int), "A")], 0) := by decide
  have hc := C5_gravity_invariant.2.2 createEmptyBoard 3 "A" (applySeq [((3 : Int), "A")]) 0 h
  exact ⟨h, hc.1, hc.2.2⟩

open GameService in
/-- C1 counterexample. In `stBotTurn` the session exists, is `in_progress`,
and it is the bot's turn; the connection handle "s9" does not belong to the
bot (whose handle is empty), yet `makeMove` accepts the submission and
mutates the session: the claim's rejection condition does not cover AI
turn-holders. -/
theorem C1_counterexample :
    (mapGet stBotTurn.games "g1").map (·.status) = some GameStatus.IN_PROGRESS ∧
    (mapGet stBotTurn.games "g1").map (·.currentPlayer) = some pBot.id ∧
    pBot.socketId ≠ "s9" ∧
    (makeMoveS stBotTurn "g1" "s9" 3).1.success = true ∧
    (mapGet (makeMoveS stBotTurn "g1" "s9" 3).2.games "g1").map (·.moves.length) = some 1 := by
  decide

open GameService in
/-- C1 (amended). `makeMove` rejects when the session is missing, when the
session is not `in_progress`, and when the participant whose turn it is is
*human* and the connection handle is not that participant's (when the
turn-holder is the AI, any connection handle is accepted — that is how bot
moves are submitted); every rejected submission leaves the registry state,
and hence board, turn and move history, exactly unchanged. -/
theorem C1_rejection_no_mutation (st : GameServiceState) (gid sid : String) (col : Int) :
    (mapGet st.games gid = none →
      makeMoveS st gid sid col = (noMove "Game not found", st)) ∧
    (∀ g, mapGet st.games gid = some g → g.status ≠ GameStatus.IN_PROGRESS →
      makeMoveS st gid sid col = (noMove "Game is not in progress", st)) ∧
    (∀ g, mapGet st.games gid = some g → g.status = GameStatus.IN_PROGRESS →
      (if g.currentPlayer = g.player1.id then g.player1 else g.player2).isBot = false →
      (if g.currentPlayer = g.player1.id then g.player1 else g.player2).socketId ≠ sid →
      makeMoveS st gid sid col = (noMove "Not your turn", st)) ∧
    (∀ res st2, makeMoveS st gid sid col = (res, st2) → res.success = false → st2 = st) := by
  refine ⟨?_, ?_, ?_, ?_⟩
  · intro h
    unfold makeMoveS
    rw [h]
  · intro g hg hs
    unfold makeMoveS
    rw [hg]
    simp only [if_pos hs]
  · intro g hg hs hbot hsock
    simp [makeMoveS, hg, hs, hbot, hsock]
  · intro res st2 h hfail
    simp only [makeMoveS] at h
    repeat' split at h
    all_goals cases h
    all_goals first | rfl | simp at hfail

open GameService in
/-- Witness for C1 at concrete inputs: a missing session, a completed
session, and a wrong connection handle for the human whose turn it is are
all rejected with the matching error and unchanged state. -/
theorem C1_rejection_no_mutation_witness :
    (mapGet stLive.games "nope" = none ∧
      makeMoveS stLive "nope" "s1" 3 = (noMove "Game not found", stLive)) ∧
    (makeMoveS stLive "g2" "s1" 3 = (noMove "Game is not in progress", stLive)) ∧
    (makeMoveS stLive "g4" "s1" 3 = (noMove "Not your turn", stLive)) := by
  refine ⟨⟨by decide, (C1_rejection_no_mutation stLive "nope" "s1" 3).1 (by decide)⟩, ?_, ?_⟩
  · exact (C1_rejection_no_mutation stLive "g2" "s1" 3).2.1 endedGame (by decide) (by decide)
  · exact (C1_rejection_no_mutation stLive "g4" "s1" 3).2.2.1 liveGame (by decide) (by decide)
      (by decide) (by decide)

open GameService in
/-- C2. A freshly created session is `in_progress` with the first
participant to move; every session stored after a `makeMove` whose status is
still `in_progress` has its turn equal to one of its two participant ids
(given that held before); a successful non-ending move flips the turn to the
other participant's id, exactly once, leaving the participants unchanged;
and under distinct participant ids "one of the two ids" is exactly one. -/
theorem C2_turn_alternation :
    (∀ (gid : String) (q : QueueEntry) (wp np : Player) (st : GameServiceState),
      (createGameS gid q wp np st).1.status = GameStatus.IN_PROGRESS ∧
      (createGameS gid q wp np st).1.currentPlayer = (createGameS gid q wp np st).1.player1.id) ∧
    (∀ (st : GameServiceState) (gid sid : String) (col : Int) (gid' : String) (g' : Game),
      (∀ g0, mapGet st.games gid' = some g0 → g0.status = GameStatus.IN_PROGRESS →
        g0.currentPlayer = g0.player1.id ∨ g0.currentPlayer = g0.player2.id) →
      mapGet (makeMoveS st gid sid col).2.games gid' = some g' →
      g'.status = GameStatus.IN_PROGRESS →
      g'.currentPlayer = g'.player1.id ∨ g'.currentPlayer = g'.player2.id) ∧
    (∀ (st : GameServiceState) (gid sid : String) (col : Int) (g : Game)
        (res : MoveResult) (st2 : GameServiceState),
      mapGet st.games gid = some g →
      makeMoveS st gid sid col = (res, st2) →
      res.success = true → res.gameEnded = false →
      ∃ g', mapGet st2.games gid = some g' ∧
        g'.player1 = g.player1 ∧ g'.player2 = g.player2 ∧
        g'.currentPlayer =
          (if g.currentPlayer = g.player1.id then g.player2.id else g.player1.id)) ∧
    (∀ g : Game, g.player1.id ≠ g.player2.id →
      (g.currentPlayer = g.player1.id ∨ g.currentPlayer = g.player2.id) →
      ((g.currentPlayer = g.player1.id ∧ ¬g.currentPlayer = g.player2.id) ∨
       (g.currentPlayer = g.player2.id ∧ ¬g.currentPlayer = g.player1.id))) ∧
    (∀ g : Game, g.player1.id ≠ g.player2.id →
      (g.currentPlayer = g.player1.id ∨ g.currentPlayer = g.player2.id) →
      (if g.currentPlayer = g.player1.id then g.player2.id else g.player1.id) ≠
        g.currentPlayer) := by
  refine ⟨fun gid q wp np st => ⟨rfl, rfl⟩, ?_, ?_, ?_, ?_⟩
  · intro st gid sid col gid' g' hpre hmg hstat
    simp only [makeMoveS] at hmg
    repeat' split at hmg
    all_goals try dsimp only [cleanupMaps] at hmg
    all_goals
      first
      | exact hpre g' hmg hstat
      | (rcases eq_or_ne gid' gid with rfl | hne
         · rw [mapGet_set_self] at hmg
           cases hmg
           first
           | (dsimp only
              try split
              all_goals simp)
           | simp at hstat
         · rw [mapGet_set_ne _ _ _ _ hne] at hmg
           exact hpre g' hmg hstat)
  · intro st gid sid col g res st2 hg hEq hsucc hend
    simp only [makeMoveS, hg] at hEq
    repeat' split at hEq
    all_goals cases hEq
    all_goals first
      | exact Bool.noConfusion hsucc
      | exact Bool.noConfusion hend
      | (dsimp only
         refine ⟨_, mapGet_set_self _ _ _, rfl, rfl, ?_⟩
         first
         | rw [if_pos (by assumption)]
         | rw [if_neg (by assumption)])
  · intro g hne hdisj
    rcases hdisj with h1 | h2
    · exact Or.inl ⟨h1, fun h2 => hne (h1.symm.trans h2)⟩
    · exact Or.inr ⟨h2, fun h1 => hne (h1.symm.trans h2)⟩
  · intro g hne hdisj
    by_cases hc : g.currentPlayer = g.player1.id
    · rw [if_pos hc, hc]
      exact fun he => hne he.symm
    · rw [if_neg hc]
      rcases hdisj with h1 | h2
      · exact absurd h1 hc
      · rw [h2]
        exact hne

open GameService in
/-- Witness for C2 at concrete inputs: creating a game from the queue
fixture, a successful non-ending move by "bob" in `stLive` flipping the turn
to "alice", and exactly-one-of-two for `liveGame`. -/
theorem C2_turn_alternation_witness :
    ((createGameS "g9" ⟨"p1", "alice", "s1"⟩ pAlice pBob stQueued).1.status =
        GameStatus.IN_PROGRESS ∧
      (createGameS "g9" ⟨"p1", "alice", "s1"⟩ pAlice pBob stQueued).1.currentPlayer =
        (createGameS "g9" ⟨"p1", "alice", "s1"⟩ pAlice pBob stQueued).1.player1.id) ∧
    (liveGame.currentPlayer = liveGame.player1.id ∨
      liveGame.currentPlayer = liveGame.player2.id) ∧
    ((makeMoveS stLive "g4" "s2" 0).1.success = true ∧
      (makeMoveS stLive "g4" "s2" 0).1.gameEnded = false ∧
      ∃ g', mapGet (makeMoveS stLive "g4" "s2" 0).2.games "g4" = some g' ∧
        g'.player1 = liveGame.player1 ∧ g'.player2 = liveGame.player2 ∧
        g'.currentPlayer =
          (if liveGame.currentPlayer = liveGame.player1.id then liveGame.player2.id
           else liveGame.player1.id)) ∧
    ((liveGame.currentPlayer = liveGame.player1.id ∧
        ¬liveGame.currentPlayer = liveGame.player2.id) ∨
      (liveGame.currentPlayer = liveGame.player2.id ∧
        ¬liveGame.currentPlayer = liveGame.player1.id)) ∧
    (if liveGame.currentPlayer = liveGame.player1.id then liveGame.player2.id
      else liveGame.player1.id) ≠ liveGame.currentPlayer := by
  refine ⟨C2_turn_alternation.1 "g9" ⟨"p1", "alice", "s1"⟩ pAlice pBob stQueued, ?_, ?_, ?_, ?_⟩
  · exact C2_turn_alternation.2.1 stLive "nope" "s1" 0 "g4" liveGame
      (by
        intro g0 h0 _
        have he : some liveGame = some g0 := h0
        cases he
        decide)
      (by decide) (by decide)
  · exact ⟨by decide, by decide,
      C2_turn_alternation.2.2.1 stLive "g4" "s2" 0 liveGame _ _ (by decide) rfl
        (by decide) (by decide)⟩
  · exact C2_turn_alternation.2.2.2.1 liveGame (by decide) (by decide)
  · exact C2_turn_alternation.2.2.2.2 liveGame (by decide) (by decide)

open GameService in
/-- C3 counterexample. `stEnded` holds a session whose status is
`completed`, yet `rejoinGame` with a matching handle succeeds: the source
never checks the session's status, so rejoin is not restricted to
`in_progress` sessions. -/
theorem C3_counterexample :
    (mapGet stEnded.games "g2").map (·.status) = some GameStatus.COMPLETED ∧
    (rejoinGameS stEnded "g2" "alice" "s9").1.success = true := by
  decide

open GameService in
/-- C3 (amended). Rejoining succeeds iff the session exists and the handle
matches one of its two participants (the session's *status is not checked*,
so completed and abandoned sessions can also be rejoined); on success the
matched participant's connected flag becomes true and its connection handle
becomes the new one, everything else in the session unchanged; in every case
the board, turn, and move history of every session — also across the
preceding disconnect — are preserved exactly. -/
theorem C3_rejoin_matching (st : GameServiceState) (gid u sid : String) :
    ((rejoinGameS st gid u sid).1.success = true ↔
      ∃ g, mapGet st.games gid = some g ∧
        (g.player1.username = u ∨ g.player2.username = u)) ∧
    (∀ g, mapGet st.games gid = some g → g.player1.username = u →
      mapGet (rejoinGameS st gid u sid).2.games gid =
        some { g with player1 := { g.player1 with socketId := sid, isConnected := true } } ∧
      (rejoinGameS st gid u sid).1.playerId = some g.player1.id) ∧
    (∀ g, mapGet st.games gid = some g → ¬g.player1.username = u →
      g.player2.username = u →
      mapGet (rejoinGameS st gid u sid).2.games gid =
        some { g with player2 := { g.player2 with socketId := sid, isConnected := true } } ∧
      (rejoinGameS st gid u sid).1.playerId = some g.player2.id) ∧
    (∀ gid' g', mapGet (rejoinGameS st gid u sid).2.games gid' = some g' →
      ∃ g0, mapGet st.games gid' = some g0 ∧ g'.board = g0.board ∧
        g'.currentPlayer = g0.currentPlayer ∧ g'.moves = g0.moves ∧
        g'.status = g0.status ∧ g'.winner = g0.winner) ∧
    (∀ sock gid' g', mapGet (handleDisconnectS st sock).2.games gid' = some g' →
      ∃ g0, mapGet st.games gid' = some g0 ∧ g'.board = g0.board ∧
        g'.currentPlayer = g0.currentPlayer ∧ g'.moves = g0.moves) := by
  refine ⟨⟨?_, ?_⟩, ?_, ?_, ?_, ?_⟩
  · intro h
    unfold rejoinGameS at h
    split at h
    · exact absurd h (by simp)
    · next g hg =>
      split at h
      · next h1 => exact ⟨g, hg, Or.inl h1⟩
      · split at h
        · next h2 => exact ⟨g, hg, Or.inr h2⟩
        · exact absurd h (by simp)
  · rintro ⟨g, hg, hu⟩
    unfold rejoinGameS
    rw [hg]
    by_cases h1 : g.player1.username = u
    · simp [h1]
    · rcases hu with hu1 | hu2
      · exact absurd hu1 h1
      · simp [h1, hu2]
  · intro g hg h1
    unfold rejoinGameS rejoinIndexUpdate
    rw [hg]
    simp only [if_pos h1]
    exact ⟨mapGet_set_self _ _ _, trivial⟩
  · intro g hg h1 h2
    unfold rejoinGameS rejoinIndexUpdate
    rw [hg]
    simp only [if_neg h1, if_pos h2]
    exact ⟨mapGet_set_self _ _ _, trivial⟩
  · intro gid' g' hmg
    unfold rejoinGameS rejoinIndexUpdate at hmg
    split at hmg
    · exact ⟨g', hmg, rfl, rfl, rfl, rfl, rfl⟩
    · next g hg =>
      split at hmg
      · rcases eq_or_ne gid' gid with rfl | hne
        · rw [mapGet_set_self] at hmg
          cases hmg
          exact ⟨g, hg, rfl, rfl, rfl, rfl, rfl⟩
        · rw [mapGet_set_ne _ _ _ _ hne] at hmg
          exact ⟨g', hmg, rfl, rfl, rfl, rfl, rfl⟩
      · split at hmg
        · rcases eq_or_ne gid' gid with rfl | hne
          · rw [mapGet_set_self] at hmg
            cases hmg
            exact ⟨g, hg, rfl, rfl, rfl, rfl, rfl⟩
          · rw [mapGet_set_ne _ _ _ _ hne] at hmg
            exact ⟨g', hmg, rfl, rfl, rfl, rfl, rfl⟩
        · exact ⟨g', hmg, rfl, rfl, rfl, rfl, rfl⟩
  · intro sock gid' g' hmg
    unfold handleDisconnectS at hmg
    split at hmg
    · exact ⟨g', hmg, rfl, rfl, rfl⟩
    · next gameId hsock =>
      split at hmg
      · exact ⟨g', hmg, rfl, rfl, rfl⟩
      · next g hg =>
        split at hmg
        · exact ⟨g', hmg, rfl, rfl, rfl⟩
        · split at hmg
          · rcases eq_or_ne gid' gameId with rfl | hne
            · rw [mapGet_set_self] at hmg
              cases hmg
              exact ⟨g, hg, rfl, rfl, rfl⟩
            · rw [mapGet_set_ne _ _ _ _ hne] at hmg
              exact ⟨g', hmg, rfl, rfl, rfl⟩
          · split at hmg
            · rcases eq_or_ne gid' gameId with rfl | hne
              · rw [mapGet_set_self] at hmg
                cases hmg
                exact ⟨g, hg, rfl, rfl, rfl⟩
              · rw [mapGet_set_ne _ _ _ _ hne] at hmg
                exact ⟨g', hmg, rfl, rfl, rfl⟩
            · exact ⟨g', hmg, rfl, rfl, rfl⟩

open GameService in
/-- Witness for C3 at concrete inputs: in `stLive`, rejoining "g4" as
"alice" with a fresh handle succeeds, stores the reconnected participant,
and preserves board, turn and history; a rejoin against a missing session
fails; a disconnect of "s2" also preserves board, turn and history. -/
theorem C3_rejoin_matching_witness :
    ((rejoinGameS stLive "g4" "alice" "s9").1.success = true) ∧
    (mapGet (rejoinGameS stLive "g4" "alice" "s9").2.games "g4" =
      some { liveGame with
        player1 := { liveGame.player1 with socketId := "s9", isConnected := true } } ∧
     (rejoinGameS stLive "g4" "alice" "s9").1.playerId = some liveGame.player1.id) ∧
    (∃ g0, mapGet stLive.games "g4" = some g0 ∧
      ({ liveGame with
        player1 := { liveGame.player1 with socketId := "s9", isConnected := true } }
          : Game).board = g0.board ∧
      ({ liveGame with
        player1 := { liveGame.player1 with socketId := "s9", isConnected := true } }
          : Game).currentPlayer = g0.currentPlayer) ∧
    (∃ g0, mapGet stLive.games "g4" = some g0 ∧
      ({ liveGame with
        player2 := { liveGame.player2 with isConnected := false } } : Game).board = g0.board ∧
      ({ liveGame with
        player2 := { liveGame.player2 with isConnected := false } } : Game).currentPlayer =
        g0.currentPlayer ∧
      ({ liveGame with
        player2 := { liveGame.player2 with isConnected := false } } : Game).moves = g0.moves) := by
  have h1 := (C3_rejoin_matching stLive "g4" "alice" "s9").1.2
    ⟨liveGame, by decide, Or.inl (by decide)⟩
  have h2 := (C3_rejoin_matching stLive "g4" "alice" "s9").2.1 liveGame (by decide) (by decide)
  refine ⟨h1, h2, ?_, ?_⟩
  · obtain ⟨g0, hg0, hb, hc, -⟩ :=
      (C3_rejoin_matching stLive "g4" "alice" "s9").2.2.2.1 "g4"
        { liveGame with
          player1 := { liveGame.player1 with socketId := "s9", isConnected := true } } h2.1
    exact ⟨g0, hg0, hb, hc⟩
  · obtain ⟨g0, hg0, hb, hc, hm⟩ :=
      (C3_rejoin_matching stLive "g4" "alice" "s9").2.2.2.2 "s2" "g4"
        { liveGame with player2 := { liveGame.player2 with isConnected := false } }
        (by decide)
    exact ⟨g0, hg0, hb, hc, hm⟩

open GameService in
/-- C4 counterexample. In `stDiscBot` the abandonment countdown fires for
the disconnected human whose opponent is the AI: the session is marked
`abandoned`, but its outcome field stays unset (`none`) because the source
assigns `game.winner` only inside `if (!opponent.isBot)`, contradicting the
claim that the outcome records the other participant as winner. -/
theorem C4_counterexample :
    discBotGame.player2.isBot = true ∧
    discBotGame.player1.isConnected = false ∧
    (abandonS stDiscBot "g3" "p1").1.gameAbandoned = true ∧
    (mapGet (abandonS stDiscBot "g3" "p1").2.games "g3").map (·.status) =
      some GameStatus.ABANDONED ∧
    (mapGet (abandonS stDiscBot "g3" "p1").2.games "g3").map (·.winner) = some none := by
  decide

open GameService in
/-- C4 (amended). When the abandonment countdown fires for
`(sessionId, participantId)`: if the session exists, is still `in_progress`,
and the targeted participant still has `connected = false`, the status
becomes `abandoned` and the *report* names the other participant as winner;
the session's outcome field however records that winner only when the other
participant is human — when the winner is the AI both the stat updates and
the outcome assignment are skipped; if any check fails the countdown is a
no-op leaving the state exactly unchanged. -/
theorem C4_abandonment (st : GameServiceState) (gid pid : String) :
    (mapGet st.games gid = none → abandonS st gid pid = (⟨false, none⟩, st)) ∧
    (∀ g, mapGet st.games gid = some g → g.status ≠ GameStatus.IN_PROGRESS →
      abandonS st gid pid = (⟨false, none⟩, st)) ∧
    (∀ g, mapGet st.games gid = some g → g.status = GameStatus.IN_PROGRESS →
      (if g.player1.id = pid then g.player1 else g.player2).isConnected = true →
      abandonS st gid pid = (⟨false, none⟩, st)) ∧
    (∀ g, mapGet st.games gid = some g → g.status = GameStatus.IN_PROGRESS →
      (pid = g.player1.id ∨ pid = g.player2.id) →
      (if g.player1.id = pid then g.player1 else g.player2).isConnected = false →
      (abandonS st gid pid).1 =
        ⟨true, some (if g.player1.id = pid then g.player2 else g.player1).id⟩ ∧
      mapGet (abandonS st gid pid).2.games gid = some
        { g with
          status := GameStatus.ABANDONED,
          winner :=
            if ¬(if g.player1.id = pid then g.player2 else g.player1).isBot = true
            then some (if g.player1.id = pid then g.player2 else g.player1).id
            else g.winner }) := by
  refine ⟨?_, ?_, ?_, ?_⟩
  · intro h
    unfold abandonS
    rw [h]
  · intro g hg hs
    unfold abandonS
    rw [hg]
    simp only [if_pos hs]
  · intro g hg hs hconn
    have hsne : ¬g.status ≠ GameStatus.IN_PROGRESS := fun hcon => hcon hs
    unfold abandonS
    rw [hg]
    simp only [if_neg hsne, if_pos hconn]
  · intro g hg hs _ hconn
    have hsne : ¬g.status ≠ GameStatus.IN_PROGRESS := fun hcon => hcon hs
    unfold abandonS
    rw [hg]
    simp only [if_neg hsne, hconn]
    rw [if_neg Bool.false_ne_true]
    exact ⟨rfl, mapGet_set_self _ _ _⟩

open GameService in
/-- Witness for C4 at concrete inputs: the countdown is a no-op on the
still-connected fixture `stBotTurn`, and fires on `stDiscHuman`, recording
the human opponent "p2" as winner in the session's outcome. -/
theorem C4_abandonment_witness :
    (abandonS stBotTurn "g1" "p1" = (⟨false, none⟩, stBotTurn)) ∧
    (abandonS stLive "nope" "p1" = (⟨false, none⟩, stLive)) ∧
    (abandonS stLive "g2" "p1" = (⟨false, none⟩, stLive)) ∧
    ((abandonS stDiscHuman "g5" "p1").1 =
      ⟨true, some (if discHumanGame.player1.id = "p1" then discHumanGame.player2
        else discHumanGame.player1).id⟩ ∧
     mapGet (abandonS stDiscHuman "g5" "p1").2.games "g5" = some
      { discHumanGame with
        status := GameStatus.ABANDONED,
        winner :=
          if ¬(if discHumanGame.player1.id = "p1" then discHumanGame.player2
            else discHumanGame.player1).isBot = true
          then some (if discHumanGame.player1.id = "p1" then discHumanGame.player2
            else discHumanGame.player1).id
          else discHumanGame.winner }) := by
  refine ⟨?_, ?_, ?_, ?_⟩
  · exact (C4_abandonment stBotTurn "g1" "p1").2.2.1 botTurnGame (by decide) (by decide)
      (by decide)
  · exact (C4_abandonment stLive "nope" "p1").1 (by decide)
  · exact (C4_abandonment stLive "g2" "p1").2.1 endedGame (by decide) (by decide)
  · exact (C4_abandonment stDiscHuman "g5" "p1").2.2.2 discHumanGame (by decide) (by decide)
      (Or.inl (by decide)) (by decide)

open GameService in
/-- C10. Ended sessions stay in the primary session map: for any session
whose status is `completed` or `abandoned`, `getGame` still returns it and a
move submission is rejected with "Game is not in progress" (never
"Game not found"); and both ending transitions (a winning/drawing move, and
the abandonment countdown) delete the participant→session entries and the
non-empty connection→session entries while keeping the session itself, so a
subsequent move submission gets exactly that rejection. -/
theorem C10_ended_sessions_retained (st : GameServiceState) (gid sid : String) (col : Int) :
    (∀ g, mapGet st.games gid = some g →
      g.status = GameStatus.COMPLETED ∨ g.status = GameStatus.ABANDONED →
      getGame st gid = some g ∧
      makeMoveS st gid sid col = (noMove "Game is not in progress", st)) ∧
    (∀ g res st2, mapGet st.games gid = some g →
      makeMoveS st gid sid col = (res, st2) → res.gameEnded = true →
      ∃ g2, mapGet st2.games gid = some g2 ∧ g2.status = GameStatus.COMPLETED ∧
        mapGet st2.playerGameMap g.player1.id = none ∧
        mapGet st2.playerGameMap g.player2.id = none ∧
        (g.player1.socketId ≠ "" → mapGet st2.socketGameMap g.player1.socketId = none) ∧
        (g.player2.socketId ≠ "" → mapGet st2.socketGameMap g.player2.socketId = none) ∧
        (∀ sid2 col2, makeMoveS st2 gid sid2 col2 = (noMove "Game is not in progress", st2))) ∧
    (∀ g pid res st2, mapGet st.games gid = some g →
      abandonS st gid pid = (res, st2) → res.gameAbandoned = true →
      ∃ g2, mapGet st2.games gid = some g2 ∧ g2.status = GameStatus.ABANDONED ∧
        mapGet st2.playerGameMap g.player1.id = none ∧
        mapGet st2.playerGameMap g.player2.id = none ∧
        (g.player1.socketId ≠ "" → mapGet st2.socketGameMap g.player1.socketId = none) ∧
        (g.player2.socketId ≠ "" → mapGet st2.socketGameMap g.player2.socketId = none) ∧
        (∀ sid2 col2, makeMoveS st2 gid sid2 col2 = (noMove "Game is not in progress", st2))) := by
  refine ⟨?_, ?_, ?_⟩
  · intro g hg hend
    refine ⟨hg, makeMoveS_reject_not_in_progress sid col hg ?_⟩
    rcases hend with h | h <;> rw [h] <;> intro hcon <;> cases hcon
  · intro g res st2 hg hEq hend
    simp only [makeMoveS, hg] at hEq
    repeat' split at hEq
    all_goals cases hEq
    all_goals first
      | exact Bool.noConfusion hend
      | (refine ⟨_, mapGet_set_self _ _ _, rfl, (cleanupMaps_spec _ _).2.2.1,
          (cleanupMaps_spec _ _).2.2.2.1, (cleanupMaps_spec _ _).2.2.2.2.1,
          (cleanupMaps_spec _ _).2.2.2.2.2, ?_⟩
         intro sid2 col2
         exact makeMoveS_reject_not_in_progress sid2 col2 (mapGet_set_self _ _ _)
           (fun hcon => GameStatus.noConfusion hcon))
  · intro g pid res st2 hg hEq hend
    simp only [abandonS, hg] at hEq
    repeat' split at hEq
    all_goals cases hEq
    all_goals first
      | exact Bool.noConfusion hend
      | (refine ⟨_, mapGet_set_self _ _ _, rfl, (cleanupMaps_spec _ _).2.2.1,
          (cleanupMaps_spec _ _).2.2.2.1, (cleanupMaps_spec _ _).2.2.2.2.1,
          (cleanupMaps_spec _ _).2.2.2.2.2, ?_⟩
         intro sid2 col2
         exact makeMoveS_reject_not_in_progress sid2 col2 (mapGet_set_self _ _ _)
           (fun hcon => GameStatus.noConfusion hcon))

open GameService in
/-- Witness for C10 at concrete inputs: the ended fixture `stEnded` is still
retrievable and rejects moves with the not-in-progress error; the winning
move in `stNearWin` ends the session, clears its index entries, keeps the
session, and a follow-up move is rejected with the same error; likewise for
the abandonment of `stDiscHuman`. -/
theorem C10_ended_sessions_retained_witness :
    (getGame stEnded "g2" = some endedGame ∧
      makeMoveS stEnded "g2" "s1" 3 = (noMove "Game is not in progress", stEnded)) ∧
    ((makeMoveS stNearWin "g6" "s1" 0).1.gameEnded = true ∧
      ∃ g2, mapGet (makeMoveS stNearWin "g6" "s1" 0).2.games "g6" = some g2 ∧
        g2.status = GameStatus.COMPLETED ∧
        mapGet (makeMoveS stNearWin "g6" "s1" 0).2.playerGameMap "p1" = none ∧
        mapGet (makeMoveS stNearWin "g6" "s1" 0).2.playerGameMap "p2" = none ∧
        (nearWinGame.player1.socketId ≠ "" →
          mapGet (makeMoveS stNearWin "g6" "s1" 0).2.socketGameMap
            nearWinGame.player1.socketId = none) ∧
        (∀ sid2 col2, makeMoveS (makeMoveS stNearWin "g6" "s1" 0).2 "g6" sid2 col2 =
          (noMove "Game is not in progress", (makeMoveS stNearWin "g6" "s1" 0).2))) ∧
    ((abandonS stDiscHuman "g5" "p1").1.gameAbandoned = true ∧
      ∃ g2, mapGet (abandonS stDiscHuman "g5" "p1").2.games "g5" = some g2 ∧
        g2.status = GameStatus.ABANDONED) := by
  refine ⟨?_, ?_, ?_⟩
  · exact (C10_ended_sessions_retained stEnded "g2" "s1" 3).1 endedGame (by decide)
      (Or.inl (by decide))
  · refine ⟨by decide, ?_⟩
    obtain ⟨g2, hmg, hst, hp1, hp2, hs1, -, hnext⟩ :=
      (C10_ended_sessions_retained stNearWin "g6" "s1" 0).2.1 nearWinGame _ _ (by decide)
        rfl (by decide)
    exact ⟨g2, hmg, hst, hp1, hp2, hs1, hnext⟩
  · refine ⟨by decide, ?_⟩
    obtain ⟨g2, hmg, hst, -⟩ :=
      (C10_ended_sessions_retained stDiscHuman "g5" "s1" 0).2.2 discHumanGame "p1" _ _
        (by decide) rfl (by decide)
    exact ⟨g2, hmg, hst⟩

open GameService in
/-- C8. The matchmaking queue performs no duplicate check: when `pAlice`'s
entry is already waiting, a second join request from the same participant id
dequeues that entry and pairs the participant against herself, producing a
session whose two participants share one id — instead of rejecting or
replacing the stale entry. -/
theorem C8_self_pairing :
    stQueued.waitingQueue = [⟨pAlice.id, pAlice.username, pAlice.socketId⟩] ∧
    (addPlayerToQueueS lookupAlice "g9" pAlice stQueued).1 =
      QueueOutcome.started selfPairedGame ∧
    selfPairedGame.player1.id = selfPairedGame.player2.id ∧
    (addPlayerToQueueS lookupAlice "g9" pAlice stQueued).2.waitingQueue = [] := by
  decide

open GameLogic Bot in
/-- C6. `chooseMove` first plays the immediate-win column for its own id
when one exists; otherwise it plays the immediate-win column of the
opponent (the block); both hold for every search depth (the immediate
phases run before minimax), in particular at searchDepth 5; the selected
column provably produces the respective immediate win. -/
theorem C6_immediate_win_then_block (pid oid : String) (d : Nat) (b : Board) :
    (findImmediateWin pid b ≠ -1 →
      getBestMove pid oid d b =
        ⟨findImmediateWin pid b, 1000, "Taking winning move"⟩ ∧
      ∃ b2 r, makeMove b (findImmediateWin pid b) pid = some (b2, r) ∧
        checkWinner b2 = some pid) ∧
    (findImmediateWin pid b = -1 → findImmediateWin oid b ≠ -1 →
      getBestMove pid oid d b =
        ⟨findImmediateWin oid b, 500, "Blocking opponent win"⟩ ∧
      ∃ b2 r, makeMove b (findImmediateWin oid b) oid = some (b2, r) ∧
        checkWinner b2 = some oid) := by
  constructor
  · intro h
    obtain ⟨hmem, hwin⟩ := findWinAux_spec pid b (getValidMoves b) h
    have hne : (getValidMoves b).isEmpty = false := by
      cases hl : getValidMoves b
      · rw [hl] at hmem; cases hmem
      · rfl
    refine ⟨?_, hwin⟩
    simp only [getBestMove]
    rw [hne, if_neg Bool.false_ne_true, if_pos h]
  · intro h hb
    obtain ⟨hmem, hwin⟩ := findWinAux_spec oid b (getValidMoves b) hb
    have hne : (getValidMoves b).isEmpty = false := by
      cases hl : getValidMoves b
      · rw [hl] at hmem; cases hmem
      · rfl
    refine ⟨?_, hwin⟩
    simp only [getBestMove]
    rw [hne, if_neg Bool.false_ne_true, if_neg (fun hc => hc h), if_pos hb]

open GameLogic Bot in
/-- Witness for C6 on `blockBoard`: the AI at depth 5 has no immediate win,
the opponent "B" can win in column 0, and the AI selects exactly that
blocking column. -/
theorem C6_immediate_win_then_block_witness :
    findImmediateWin "A" blockBoard = -1 ∧
    findImmediateWin "B" blockBoard = 0 ∧
    getBestMove "A" "B" 5 blockBoard =
      ⟨findImmediateWin "B" blockBoard, 500, "Blocking opponent win"⟩ ∧
    ∃ b2 r, makeMove blockBoard (findImmediateWin "B" blockBoard) "B" = some (b2, r) ∧
      checkWinner b2 = some "B" :=
  ⟨by decide, by decide,
   ((C6_immediate_win_then_block "A" "B" 5 blockBoard).2 (by decide) (by decide)).1,
   ((C6_immediate_win_then_block "A" "B" 5 blockBoard).2 (by decide) (by decide)).2⟩

open GameLogic Bot in
/-- C7 counterexample. On `noPositiveBoard` (only columns 0 and 3 playable,
neither side with an immediate win) every root score of the minimax phase at
the default depth is nonpositive — the search "degenerates to no positive
move" — yet the AI does not fall back to the center-first preference order
(which would pick column 3, the first legal column of [3,2,4,1,5,0,6]): it
plays column 0, the first column attaining the maximal (nonpositive) score.
The fallback branch requires `bestScore = -Infinity`, which cannot happen
when a legal column exists. -/
theorem C7_counterexample :
    findImmediateWin "A" noPositiveBoard = -1 ∧
    findImmediateWin "B" noPositiveBoard = -1 ∧
    (∀ c ∈ getValidMoves noPositiveBoard, rootScore "A" "B" 4 noPositiveBoard c ≤ 0) ∧
    centerColumns.find? (fun c => (getValidMoves noPositiveBoard).contains c) = some 3 ∧
    (getBestMove "A" "B" 5 noPositiveBoard).column = 0 ∧
    ((0 : Int) = 3 → False) := by
  set_option maxRecDepth 100000 in decide

open GameLogic Bot in
/-- C7 (amended). In the minimax phase (no immediate win or block, at least
one legal column), ties in best score are broken by the first column
encountered: the chosen column is the first legal column attaining the
maximal root score, and every legal column scores at most the reported best
score; the best score always exceeds `-Infinity`, so the center-first
fallback branch (guarded by `bestScore === -Infinity`) never fires — even
when no root score is positive. -/
theorem C7_tiebreak_first_argmax (pid oid : String) (maxDepth : Nat) (b : Board)
    (hwf : wellFormed b) (hd : maxDepth ≤ 100)
    (hw1 : findImmediateWin pid b = -1) (hw2 : findImmediateWin oid b = -1)
    (hne : getValidMoves b ≠ []) :
    NEG_INF < (getBestMove pid oid maxDepth b).score ∧
    (getBestMove pid oid maxDepth b).score =
      ((getValidMoves b).map (rootScore pid oid (maxDepth - 1) b)).foldl max NEG_INF ∧
    (getValidMoves b).find?
      (fun c => rootScore pid oid (maxDepth - 1) b c =
        (getBestMove pid oid maxDepth b).score) =
      some (getBestMove pid oid maxDepth b).column ∧
    (∀ c ∈ getValidMoves b,
      rootScore pid oid (maxDepth - 1) b c ≤ (getBestMove pid oid maxDepth b).score) := by
  have hsome : ∀ c ∈ getValidMoves b, (makeMove b c pid).isSome = true :=
    fun c hc => isValidMove_isSome pid hwf (mem_getValidMoves hc)
  obtain ⟨A1, A2, A3⟩ := bestLoop_argmax pid oid (maxDepth - 1) b (getValidMoves b)
    ((getValidMoves b).headD 0) NEG_INF "Strategic move" hsome
  have hscores : ∀ c ∈ getValidMoves b, NEG_INF < rootScore pid oid (maxDepth - 1) b c := by
    intro c hc
    have hs := hsome c hc
    rcases hm : makeMove b c pid with _ | ⟨b2, r⟩
    · rw [hm] at hs; cases hs
    · have hr : rootScore pid oid (maxDepth - 1) b c =
          minimax pid oid (maxDepth - 1) b2 false NEG_INF POS_INF := by
        unfold rootScore; rw [hm]
      rw [hr]
      exact minimax_gt_NEG_INF pid oid (maxDepth - 1) b2 false NEG_INF POS_INF
        (makeMove_wellFormed hwf hm) (le_trans (Nat.sub_le _ _) hd)
  obtain ⟨c0, hc0⟩ := List.exists_mem_of_ne_nil _ hne
  have hlt : NEG_INF < (bestLoop pid oid (maxDepth - 1) b (getValidMoves b)
      ((getValidMoves b).headD 0) NEG_INF "Strategic move").2.1 := by
    rw [A1]
    exact lt_of_lt_of_le (hscores c0 hc0)
      (foldl_max_mem_le _ _ _ (List.mem_map.mpr ⟨c0, hc0, rfl⟩))
  have hie : (getValidMoves b).isEmpty = false := by
    rcases hl : getValidMoves b with _ | _
    · exact absurd hl hne
    · rfl
  have he : getBestMove pid oid maxDepth b =
      ⟨(bestLoop pid oid (maxDepth - 1) b (getValidMoves b) ((getValidMoves b).headD 0)
          NEG_INF "Strategic move").1,
       (bestLoop pid oid (maxDepth - 1) b (getValidMoves b) ((getValidMoves b).headD 0)
          NEG_INF "Strategic move").2.1,
       (bestLoop pid oid (maxDepth - 1) b (getValidMoves b) ((getValidMoves b).headD 0)
          NEG_INF "Strategic move").2.2⟩ := by
    simp only [getBestMove, hie]
    rw [if_neg Bool.false_ne_true, if_neg (fun hc => hc hw1), if_neg (fun hc => hc hw2),
      if_neg hlt.ne']
  rw [he]
  exact ⟨hlt, A1, A3 hlt, fun c hc =>
    A1 ▸ foldl_max_mem_le _ _ _ (List.mem_map.mpr ⟨c, hc, rfl⟩)⟩

open GameLogic Bot in
/-- Witness for C7 at a concrete input: on the empty board at depth 5,
neither gate fires, legal columns exist, and the theorem yields the
first-argmax characterization of the chosen column and best score. -/
theorem C7_tiebreak_first_argmax_witness :
    wellFormed createEmptyBoard ∧ (5 : Nat) ≤ 100 ∧
    findImmediateWin "A" createEmptyBoard = -1 ∧
    findImmediateWin "B" createEmptyBoard = -1 ∧
    getValidMoves createEmptyBoard ≠ [] ∧
    (NEG_INF < (getBestMove "A" "B" 5 createEmptyBoard).score ∧
      (getBestMove "A" "B" 5 createEmptyBoard).score =
        ((getValidMoves createEmptyBoard).map
          (rootScore "A" "B" 4 createEmptyBoard)).foldl max NEG_INF ∧
      (getValidMoves createEmptyBoard).find?
        (fun c => rootScore "A" "B" 4 createEmptyBoard c =
          (getBestMove "A" "B" 5 createEmptyBoard).score) =
        some (getBestMove "A" "B" 5 createEmptyBoard).column ∧
      (∀ c ∈ getValidMoves createEmptyBoard,
        rootScore "A" "B" 4 createEmptyBoard c ≤
          (getBestMove "A" "B" 5 createEmptyBoard).score)) :=
  ⟨by decide, by norm_num, by decide, by decide, by decide,
   C7_tiebreak_first_argmax "A" "B" 5 createEmptyBoard (by decide) (by norm_num)
     (by decide) (by decide) (by decide)⟩

/-- C9. The `ConnectFourBot` constructor clamps every requested difficulty
`d` to an effective search depth `max(3, min(7, d))`, which always lies
between 3 and 7 inclusive, with 5 as the default difficulty. -/
theorem C9_depth_clamp :
    (∀ d : Int, Bot.botMaxDepth d = max 3 (min 7 d) ∧
      3 ≤ Bot.botMaxDepth d ∧ Bot.botMaxDepth d ≤ 7) ∧
    Bot.botMaxDepth Bot.defaultDifficulty = 5 := by
  refine ⟨fun d => ⟨rfl, le_max_left _ _, ?_⟩, by decide⟩
  exact max_le (by norm_num) (min_le_left _ _)

end C4E
